import Mathlib

/-!
Shallow embedding of the capture-session core in `src/file.c` (Wireshark's
`file.c`): ingestion (`cf_read` / `read_record` / `add_packet_to_packet_list`),
the rescan/redissect queueing logic (`cf_filter_packets`,
`cf_redissect_packets`, `rescan_packets`), selection repair after a rescan,
the record iterator (`process_specified_records`), the save/export pipeline
(`cf_save_records`, `cf_export_specified_packets`), the search loop
(`find_packet`) and the byte matchers (`match_narrow`, `match_binary`).

Machine integers that matter here (frame numbers, counters) are modelled as
`Nat`; the C counters are 32/64-bit but no claim involves overflow.  External
collaborators (record provider, dissector, filter compiler, presentation) are
modelled as oracle parameters: a record is an opaque `Nat` id, and a compiled
filter predicate is an `Option (Nat → Bool)` (`none` = no filter, matching the
`dfilter_t *dfcode` nullable pointer).
-/

namespace Wireshark

/-- The values of `cf->redissection_queued` (`RESCAN_NONE`, `RESCAN_SCAN`,
`RESCAN_REDISSECT` in `cfile.h` as used by `file.c`). -/
inductive RescanType
  | rnone
  | rscan
  | rredissect
deriving DecidableEq, Repr

/-- The per-record metadata relevant to the claims: `frame_data.num`,
`frame_data.passed_dfilter` and `frame_data.ref_time` (flags start cleared
when the frame is created by `frame_data_init`). -/
structure Frame where
  num : Nat
  passed_dfilter : Bool
  ref_time : Bool
deriving DecidableEq, Repr

/-- `frame_data_init(&fdlocal, num, ...)`: a fresh frame carries its assigned
number and cleared flags. -/
def frame_data_init (num : Nat) : Frame :=
  { num := num, passed_dfilter := false, ref_time := false }

/-- The capture-session state touched by ingestion: `cf->count`, the frame
store `cf->provider.frames` (append-only list), `cf->displayed_count`,
`cf->first_displayed`, `cf->last_displayed` (frame numbers, `0` = none yet),
`cf->redissecting` and `cf->redissection_queued`. -/
structure CaptureState where
  count : Nat
  frames : List Frame
  displayed_count : Nat
  first_displayed : Nat
  last_displayed : Nat
  redissecting : Bool
  redissection_queued : RescanType
deriving Repr

/-- The state after `cf_open` reset all counters: empty store, zero
counters, no redissection in progress or queued. -/
def initState : CaptureState :=
  { count := 0, frames := [], displayed_count := 0, first_displayed := 0,
    last_displayed := 0, redissecting := false,
    redissection_queued := RescanType.rnone }

/-- `add_packet_to_packet_list` (file.c:1172-1241), restricted to the state
the claims talk about: dissect the record, set `passed_dfilter` from the
display filter (`1` unconditionally when `dfcode == NULL`), bump
`displayed_count` when the frame passed or is a time reference, and advance
`first_displayed` / `last_displayed` for such frames. -/
def add_packet_to_packet_list (dfcode : Option (Nat → Bool)) (r : Nat)
    (fd : Frame) (s : CaptureState) : Frame × CaptureState :=
  let fd := { fd with passed_dfilter :=
                match dfcode with
                | some f => f r
                | none => true }
  let s :=
    if fd.passed_dfilter || fd.ref_time then
      { s with displayed_count := s.displayed_count + 1 }
    else s
  let s :=
    if fd.passed_dfilter || fd.ref_time then
      { s with
        first_displayed := if s.first_displayed = 0 then fd.num
                           else s.first_displayed,
        last_displayed := fd.num }
    else s
  (fd, s)

/-- The read-time-filter verdict computed by `read_record`: `passed` stays
`TRUE` when `cf->rfcode` is null, otherwise it is the filter's verdict on the
dissected record (file.c:1271-1281). -/
def rf_verdict (rfcode : Option (Nat → Bool)) (r : Nat) : Bool :=
  match rfcode with
  | some f => f r
  | none => true

/-- `read_record` (file.c:1248-1302).  The candidate frame number is
`cf->count + 1`; when a read-time filter `rfcode` is set the record is
dissected once against it, and on failure the record is not added at all
(returns `false`, state unchanged).  When kept, the frame is appended to the
store, `cf->count` is incremented, and — unless a redissection is in progress
or queued — the record runs through `add_packet_to_packet_list`. -/
def read_record (rfcode dfcode : Option (Nat → Bool)) (r : Nat)
    (s : CaptureState) : Bool × CaptureState :=
  let fdlocal := frame_data_init (s.count + 1)
  let passed := rf_verdict rfcode r
  if passed then
    let s1 := { s with count := s.count + 1 }
    if !s1.redissecting && s1.redissection_queued = RescanType.rnone then
      let p := add_packet_to_packet_list dfcode r fdlocal s1
      (true, { p.2 with frames := p.2.frames ++ [p.1] })
    else
      (true, { s1 with frames := s1.frames ++ [fdlocal] })
  else
    (false, s)

/-- The sequential read loop of `cf_read` (file.c:585-656).  `size` is the
result of `wtap_file_size`; the max-record cap at file.c:596-604 is checked
only under `size >= 0`.  Returns the final state and the `too_many_records`
flag. -/
def cf_read_loop (size : Int) (max_records : Nat)
    (rfcode dfcode : Option (Nat → Bool)) :
    List Nat → CaptureState → CaptureState × Bool
  | [], s => (s, false)
  | r :: rs, s =>
    if 0 ≤ size ∧ s.count = max_records then
      (s, true)
    else
      cf_read_loop size max_records rfcode dfcode rs
        (read_record rfcode dfcode r s).2

/-- Invariant maintained by the ingestion loop when neither a read-time nor a
display filter is configured: after `c` records, every counter equals `c`,
`first_displayed` is `1` as soon as anything was read, and every stored frame
has `passed_dfilter` set. -/
def noFilterInv (c : Nat) (s : CaptureState) : Prop :=
  s.count = c ∧ s.displayed_count = c ∧ s.last_displayed = c ∧
  s.first_displayed = (if c = 0 then 0 else 1) ∧
  s.redissecting = false ∧ s.redissection_queued = RescanType.rnone ∧
  ∀ f ∈ s.frames, f.passed_dfilter = true

/-- The two user-level rescan requests: a display-filter change
(`cf_filter_packets`, which queues `RESCAN_SCAN`) and a full redissection
(`cf_redissect_packets`, which queues `RESCAN_REDISSECT`). -/
inductive Req
  | filterOnly
  | fullRedissect
deriving DecidableEq, Repr

/-- The rescan-controller state: the busy guard `cf->read_lock`, the pending
slot `cf->redissection_queued`, and whether `cf->state == FILE_CLOSED`. -/
structure Ctl where
  read_lock : Bool
  queued : RescanType
  file_closed : Bool
deriving DecidableEq, Repr

/-- Effect on `cf->redissection_queued` of a request arriving re-entrantly
(from a progress callback) while `read_lock` is held.  `filterOnly` is the
dispatch tail of `cf_filter_packets` (file.c:1537-1539): it sets
`RESCAN_SCAN` only when nothing is queued yet.  `fullRedissect` is the head
of `cf_redissect_packets` (file.c:1558-1565): it escalates the slot to
`RESCAN_REDISSECT` when the lock is held or a plain rescan is queued, and
then returns because the slot is non-empty. -/
def applyDuringScan (r : Req) (c : Ctl) : Ctl :=
  match r with
  | Req.filterOnly =>
    if c.queued = RescanType.rnone then
      if c.read_lock then { c with queued := RescanType.rscan } else c
    else c
  | Req.fullRedissect =>
    if c.read_lock ∨ c.queued = RescanType.rscan then
      { c with queued := RescanType.rredissect }
    else c

/-- `rescan_packets` (file.c:1623-2010) restricted to its queue/lock
discipline: clear the pending slot, take the lock, scan (the request batch
`sched.head` models the re-entrant requests that the loop's per-iteration
check at file.c:1824-1829 observes), drop the lock, and — if a request was
queued while scanning — immediately run the merged request, escalated to a
full redissection if either the interrupted scan or the queued request was
one (file.c:2004-2009).  Returns the final state and the `redissect` flags
of the scans that were started, in order; `none` when `fuel` runs out. -/
def rescan_packets_model : Nat → List (List Req) → Bool → Ctl →
    Option (Ctl × List Bool)
  | 0, _, _, _ => none
  | fuel + 1, sched, redissect, c =>
    let c1 : Ctl := { c with queued := RescanType.rnone, read_lock := true }
    let c2 := (sched.headD []).foldl (fun acc r => applyDuringScan r acc) c1
    let q := c2.queued
    let c3 : Ctl := { c2 with read_lock := false }
    if q = RescanType.rnone then
      some (c3, [redissect])
    else
      match rescan_packets_model fuel sched.tail
          (redissect || q = RescanType.rredissect) c3 with
      | some p => some (p.1, redissect :: p.2)
      | none => none

/-- The queue-or-run dispatch at the end of `cf_filter_packets`
(file.c:1537-1547): with nothing queued, a busy session queues
`RESCAN_SCAN`, an idle open session rescans immediately (not a
redissection); with something queued, nothing happens. -/
def cf_filter_packets_model (fuel : Nat) (sched : List (List Req)) (c : Ctl) :
    Option (Ctl × List Bool) :=
  if c.queued = RescanType.rnone then
    if c.read_lock then some ({ c with queued := RescanType.rscan }, [])
    else if ¬c.file_closed then rescan_packets_model fuel sched false c
    else some (c, [])
  else some (c, [])

/-- `cf_redissect_packets` (file.c:1555-1575): escalate the pending slot to
`RESCAN_REDISSECT` when busy or when a plain rescan is queued; return if
anything is queued; otherwise redissect immediately. -/
def cf_redissect_packets_model (fuel : Nat) (sched : List (List Req))
    (c : Ctl) : Option (Ctl × List Bool) :=
  let c := if c.read_lock ∨ c.queued = RescanType.rscan then
      { c with queued := RescanType.rredissect } else c
  if c.queued ≠ RescanType.rnone then some (c, [])
  else if ¬c.file_closed then rescan_packets_model fuel sched true c
  else some (c, [])

/-- The completion tail of `cf_read` (file.c:721-740): drop the lock, then
run any queued rescan, as a full redissection iff `RESCAN_REDISSECT` was
queued. -/
def cf_read_finish_model (fuel : Nat) (sched : List (List Req)) (c : Ctl) :
    Option (Ctl × List Bool) :=
  let c : Ctl := { c with read_lock := false }
  if c.queued ≠ RescanType.rnone then
    rescan_packets_model fuel sched (c.queued = RescanType.rredissect) c
  else some (c, [])

/-- Accumulator for the selection-repair bookkeeping of the rescan loop
(file.c:1762-1895): `prev` is the previous frame (number and its
already-updated `passed_dfilter`), `preceding` / `following` are
`preceding_frame_num` / `following_frame_num` (`none` = `-1`),
`selectedSeen` is `selected_frame_seen` and `selectedPassed` is
`selected_frame_num` (`none` = `-1`). -/
structure RepairAcc where
  prev : Option (Nat × Bool)
  preceding : Option Nat
  following : Option Nat
  selectedSeen : Bool
  selectedPassed : Option Nat
deriving DecidableEq, Repr

/-- The accumulator at loop entry (file.c:1762-1771). -/
def initRepair : RepairAcc :=
  { prev := none, preceding := none, following := none,
    selectedSeen := false, selectedPassed := none }

/-- One iteration of the rescan loop for frame `f = (num, passed)`, where
`passed` is the new `passed_dfilter` that `add_packet_to_packet_list`
computes for it, in source order (file.c:1864-1893): remember the previous
frame as `preceding` while the selected frame has not been seen and the
previous frame passed; then, after dissection, record the first passing
frame after the selected one as `following`; then mark the selected frame
seen (and still-passing, if it passed); finally shift `prev`. -/
def repair_step (selNum : Nat) (a : RepairAcc) (f : Nat × Bool) : RepairAcc :=
  let a :=
    match a.prev with
    | some pv =>
      if ¬a.selectedSeen ∧ pv.2 = true then { a with preceding := some pv.1 }
      else a
    | none => a
  let a :=
    if f.2 = true ∧ a.selectedSeen = true ∧ a.following = none then
      { a with following := some f.1 }
    else a
  let a :=
    if f.1 = selNum then
      { a with selectedSeen := true,
               selectedPassed := if f.2 then some f.1 else a.selectedPassed }
    else a
  { a with prev := some f }

/-- The post-loop selection repair (file.c:1938-1972), for the case where a
frame was previously selected: if it still passes it stays selected;
otherwise prefer the preceding passing frame, fall back to the following
one, and clear the selection (`cf_unselect_packet`) when neither exists. -/
def repair_result (selNum : Nat) (frames : List (Nat × Bool)) : Option Nat :=
  let a := frames.foldl (repair_step selNum) initRepair
  match a.selectedPassed with
  | some n => some n
  | none =>
    match a.following with
    | none => a.preceding
    | some fn =>
      match a.preceding with
      | none => some fn
      | some _ => a.preceding

/-- The last (hence, in a sorted store, nearest-from-below) passing frame
number of a list of (number, passed) pairs. -/
def lastPassing (l : List (Nat × Bool)) : Option Nat :=
  ((l.filter fun f => f.2).map Prod.fst).getLast?

/-- The first (hence, in a sorted store, nearest-from-above) passing frame
number of a list of (number, passed) pairs. -/
def firstPassing (l : List (Nat × Bool)) : Option Nat :=
  ((l.filter fun f => f.2).map Prod.fst).head?

/-- `cf_read_status_t`. -/
inductive CfReadStatus
  | rok
  | rerror
  | raborted
deriving DecidableEq, Repr

/-- `cf_write_status_t`. -/
inductive CfWriteStatus
  | ok
  | error
  | aborted
deriving DecidableEq, Repr

/-- `psp_return_t`: outcome of `process_specified_records`. -/
inductive PspR
  | finished
  | stopped
  | failed
deriving DecidableEq, Repr

/-- Verdict of `packet_range_process_packet` on one frame:
`range_process_this` / `range_process_next` / `range_processing_finished`. -/
inductive RangeP
  | process
  | skip
  | fin
deriving DecidableEq, Repr

/-- A session handle for the busy-guard claims: the ingestion state plus
`cf->read_lock`. -/
structure Session where
  cap : CaptureState
  read_lock : Bool
deriving Repr

/-- `cf_read` (file.c:493-772) restricted to the guard and loop: a re-entrant
call while `cf->read_lock` is held fails immediately with `CF_READ_ERROR`
and touches nothing (file.c:519-523); otherwise the lock is taken, the
sequential loop runs, the lock is dropped, and `too_many_records` is
reported as `CF_READ_ERROR` (file.c:758-769). -/
def cf_read_model (size : Int) (max_records : Nat)
    (rfcode dfcode : Option (Nat → Bool)) (records : List Nat) (s : Session) :
    CfReadStatus × Session :=
  if s.read_lock then (CfReadStatus.rerror, s)
  else
    let p := cf_read_loop size max_records rfcode dfcode records s.cap
    (if p.2 then CfReadStatus.rerror else CfReadStatus.rok,
     { cap := p.1, read_lock := false })

/-- The frame loop of `process_specified_records` (file.c:2144-2213).
`stopAt` models the user pressing cancel before frame `fn` is handled
(`cf->stop_flag`), `rangeF` is `packet_range_process_packet` (always
`process` when `range == NULL`), `readOk` is `cf_read_record` success and
`cb` is the per-record callback verdict.  Returns the outcome and how many
frames were fed to the callback successfully. -/
def psr_go (stopAt : Option Nat) (rangeF : Nat → RangeP)
    (readOk cb : Nat → Bool) : Nat → Nat → Nat → PspR × Nat
  | 0, _, k => (PspR.finished, k)
  | n + 1, fn, k =>
    if stopAt = some fn then (PspR.stopped, k)
    else
      match rangeF fn with
      | RangeP.skip => psr_go stopAt rangeF readOk cb n (fn + 1) k
      | RangeP.fin => (PspR.finished, k)
      | RangeP.process =>
        if readOk fn && cb fn then psr_go stopAt rangeF readOk cb n (fn + 1) (k + 1)
        else (PspR.failed, k)

/-- `process_specified_records` (file.c:2101-2228): a re-entrant call while
`cf->read_lock` is held fails immediately with `PSP_FAILED`, processing
nothing (file.c:2131-2134); otherwise the frames `1..count` run through
`psr_go`. -/
def process_specified_records_model (read_lock : Bool) (count : Nat)
    (stopAt : Option Nat) (rangeF : Nat → RangeP) (readOk cb : Nat → Bool) :
    PspR × Nat :=
  if read_lock then (PspR.failed, 0)
  else psr_go stopAt rangeF readOk cb count 1 0

/-- Outcome of the identity-path `ws_rename(cf->filename, fname)` attempt
(file.c:4504-4523): success, failure with `errno == EXDEV` (fall back to a
copy), or any other failure (abort the save). -/
inductive MoveR
  | mok
  | mexdev
  | mfail
deriving DecidableEq, Repr

/-- The capture-file fields that `cf_save_records` consults. -/
structure SaveCf where
  read_lock : Bool
  cd_t : Nat
  compression : Nat
  unsaved_changes : Bool
  is_tempfile : Bool
  count : Nat
deriving DecidableEq, Repr

/-- The arguments of `cf_save_records`.  (`dont_reopen` only controls the
post-save reopen of lines 4675-4779, which touches no field modelled
here.) -/
structure SaveArgs where
  save_format : Nat
  compression_type : Nat
  discard_comments : Bool
  dont_reopen : Bool
deriving DecidableEq, Repr

/-- Oracle outcomes of the external steps of a save/export:
`blocksOk` is `wtap_addrinfo_list_empty(..) || ..BLOCK_NOT_SUPPORTED`
(file.c:4473), `moveOutcome` the identity rename, `copyOk` is
`copy_file_binary_mode`, `dumpOpenOk` is `wtap_dump_open`,
`partialContent`/`newContent` are the bytes sitting in the dump target
after open / after a complete write, `stopAt`/`readOk`/`writeOk` drive the
record iterator, `closeOk` is `wtap_dump_close` and `renameOk` the final
rename over the destination. -/
structure SaveEnv where
  blocksOk : Bool
  moveOutcome : MoveR
  copyOk : Bool
  dumpOpenOk : Bool
  partialContent : List Nat
  newContent : List Nat
  stopAt : Option Nat
  readOk : Nat → Bool
  writeOk : Nat → Bool
  closeOk : Bool
  renameOk : Bool

/-- The three file-system locations a save touches: the destination `fname`
(`none` = does not exist), its safe-save sibling `fname~`, and the bytes of
the currently open capture file `cf->filename` (assumed distinct from both,
as in the claims' scenarios). -/
structure SaveFS where
  dest : Option (List Nat)
  tmp : Option (List Nat)
  src : List Nat
deriving DecidableEq, Repr

/-- What a save/export run produced: the returned status, the file system,
the possibly cleared `cf->unsaved_changes`, how many records the writer
sink wrote, whether the identity (move/copy) path was taken, and whether
the `cf->read_lock` warning of file.c:4463-4465 fired. -/
structure SaveResult where
  status : CfWriteStatus
  fs : SaveFS
  unsaved_changes : Bool
  written : Nat
  identityPath : Bool
  warned : Bool
deriving DecidableEq, Repr

/-- The shared tail that renames `fname~` over `fname` (file.c:4636-4662 and
4899-4909): on success the destination takes the temporary's bytes and the
temporary is gone; on failure control reaches `fail:`, which deletes the
temporary and leaves the destination as it was. -/
def rename_over (env : SaveEnv) (fs : SaveFS) (okUnsaved failUnsaved : Bool)
    (written : Nat) (identityPath warned : Bool) : SaveResult :=
  if env.renameOk then
    { status := CfWriteStatus.ok,
      fs := { fs with dest := fs.tmp, tmp := none },
      unsaved_changes := okUnsaved, written := written,
      identityPath := identityPath, warned := warned }
  else
    { status := CfWriteStatus.error, fs := { fs with tmp := none },
      unsaved_changes := failUnsaved, written := written,
      identityPath := identityPath, warned := warned }

/-- The rewrite path shared by `cf_save_records` (file.c:4548-4634) and
`cf_export_specified_packets` (file.c:4817-4924): open a dump handle on
`fname~` when the destination exists (else on `fname` directly), drive the
record iterator with the `save_record` sink, close, then rename the
temporary over the destination.  `PSP_STOPPED` deletes the temporary and
returns `CF_WRITE_ABORTED`; every failure reaches `fail:`, which deletes
the temporary.  `clearUnsaved` distinguishes `cf_save_records` (which sets
`cf->unsaved_changes = FALSE` on success, file.c:4673) from the export,
which leaves it alone. -/
def rewrite_records (cf : SaveCf) (env : SaveEnv) (rangeF : Nat → RangeP)
    (clearUnsaved : Bool) (fs : SaveFS) (warned : Bool) : SaveResult :=
  let okUnsaved := if clearUnsaved then false else cf.unsaved_changes
  if fs.dest ≠ none then
    if env.dumpOpenOk then
      let fs1 : SaveFS := { fs with tmp := some env.partialContent }
      let psp := process_specified_records_model cf.read_lock cf.count
        env.stopAt rangeF env.readOk env.writeOk
      match psp.1 with
      | PspR.stopped =>
        { status := CfWriteStatus.aborted, fs := { fs1 with tmp := none },
          unsaved_changes := cf.unsaved_changes, written := psp.2,
          identityPath := false, warned := warned }
      | PspR.failed =>
        { status := CfWriteStatus.error, fs := { fs1 with tmp := none },
          unsaved_changes := cf.unsaved_changes, written := psp.2,
          identityPath := false, warned := warned }
      | PspR.finished =>
        let fs2 : SaveFS := { fs1 with tmp := some env.newContent }
        if env.closeOk then
          rename_over env fs2 okUnsaved cf.unsaved_changes psp.2 false warned
        else
          { status := CfWriteStatus.error, fs := { fs2 with tmp := none },
            unsaved_changes := cf.unsaved_changes, written := psp.2,
            identityPath := false, warned := warned }
    else
      { status := CfWriteStatus.error, fs := { fs with tmp := none },
        unsaved_changes := cf.unsaved_changes, written := 0,
        identityPath := false, warned := warned }
  else
    if env.dumpOpenOk then
      let fs1 : SaveFS := { fs with dest := some env.partialContent }
      let psp := process_specified_records_model cf.read_lock cf.count
        env.stopAt rangeF env.readOk env.writeOk
      match psp.1 with
      | PspR.stopped =>
        { status := CfWriteStatus.aborted, fs := fs1,
          unsaved_changes := cf.unsaved_changes, written := psp.2,
          identityPath := false, warned := warned }
      | PspR.failed =>
        { status := CfWriteStatus.error, fs := fs1,
          unsaved_changes := cf.unsaved_changes, written := psp.2,
          identityPath := false, warned := warned }
      | PspR.finished =>
        let fs2 : SaveFS := { fs1 with dest := some env.newContent }
        if env.closeOk then
          { status := CfWriteStatus.ok, fs := fs2,
            unsaved_changes := okUnsaved, written := psp.2,
            identityPath := false, warned := warned }
        else
          { status := CfWriteStatus.error, fs := fs2,
            unsaved_changes := cf.unsaved_changes, written := psp.2,
            identityPath := false, warned := warned }
    else
      { status := CfWriteStatus.error, fs := fs,
        unsaved_changes := cf.unsaved_changes, written := 0,
        identityPath := false, warned := warned }

/-- The identity copy branch (`SAVE_WITH_COPY`, file.c:4534-4547): when the
destination exists, copy the open file's bytes to `fname~` and rename over;
when it does not, copy straight to `fname`.  A copy failure reaches `fail:`
(deleting `fname~` when it was the target). -/
def identity_copy_save (cf : SaveCf) (env : SaveEnv) (fs : SaveFS)
    (warned : Bool) : SaveResult :=
  if fs.dest ≠ none then
    if env.copyOk then
      rename_over env { fs with tmp := some fs.src } false cf.unsaved_changes
        0 true warned
    else
      { status := CfWriteStatus.error, fs := { fs with tmp := none },
        unsaved_changes := cf.unsaved_changes, written := 0,
        identityPath := true, warned := warned }
  else
    if env.copyOk then
      { status := CfWriteStatus.ok, fs := { fs with dest := some fs.src },
        unsaved_changes := false, written := 0, identityPath := true,
        warned := warned }
    else
      { status := CfWriteStatus.error, fs := fs,
        unsaved_changes := cf.unsaved_changes, written := 0,
        identityPath := true, warned := warned }

/-- `cf_save_records` (file.c:4438-4795), POSIX branch.  A call with
`cf->read_lock` held is only *warned* about (file.c:4461-4465) and
proceeds.  The identity path is taken exactly when the format and
compression match, no comments are discarded, there are no unsaved changes,
and no name-resolution data blocks it; a temporary source file is first
moved by rename (success ends the save; `EXDEV` falls back to copy; other
failures reach `fail:` with no temporary to delete), otherwise the file is
copied.  Any other combination takes the rewrite path. -/
def cf_save_records_model (cf : SaveCf) (args : SaveArgs) (env : SaveEnv)
    (fs : SaveFS) : SaveResult :=
  let warned := cf.read_lock
  if args.save_format = cf.cd_t ∧ args.compression_type = cf.compression
      ∧ args.discard_comments = false ∧ cf.unsaved_changes = false
      ∧ env.blocksOk = true then
    if cf.is_tempfile then
      match env.moveOutcome with
      | MoveR.mok =>
        { status := CfWriteStatus.ok, fs := { fs with dest := some fs.src },
          unsaved_changes := false, written := 0, identityPath := true,
          warned := warned }
      | MoveR.mexdev => identity_copy_save cf env fs warned
      | MoveR.mfail =>
        { status := CfWriteStatus.error, fs := fs,
          unsaved_changes := cf.unsaved_changes, written := 0,
          identityPath := true, warned := warned }
    else identity_copy_save cf env fs warned
  else
    rewrite_records cf env (fun _ => RangeP.process) true fs warned

/-- `cf_export_specified_packets` (file.c:4797-4925): always the rewrite
path, restricted to `rangeF`, never touching `cf->unsaved_changes`. -/
def cf_export_specified_packets_model (cf : SaveCf) (env : SaveEnv)
    (rangeF : Nat → RangeP) (fs : SaveFS) : SaveResult :=
  rewrite_records cf env rangeF false fs false

/-- `g_ascii_toupper`: ASCII-only case folding. -/
def g_ascii_toupper (b : Nat) : Nat :=
  if 97 ≤ b ∧ b ≤ 122 then b - 32 else b

/-- The scan loop shared by `match_narrow` (file.c:3373-3394) and
`match_binary` (file.c:3470-3488), over payload bytes `data` (already
case-folded for the case-insensitive narrow search, since the fold is
applied to each byte as it is read) with `bufLen = cap_len`:  on a matching
byte the partial-match counter `c` advances, and when it reaches the
pattern length the loop stops, returning the index `i` of the last matched
byte (saved into `cf->search_pos`); on a mismatch the scan index steps back
by `c` (the loop's `i += 1` then lands it at `i - c + 1`) and `c` resets
to 0. -/
def match_loop (text data : List Nat) (bufLen : Nat) (i c : Nat) :
    Option Nat :=
  if h : i < bufLen then
    if data.getD i 0 = text.getD c 0 then
      if c + 1 = text.length then some i
      else match_loop text data bufLen (i + 1) (c + 1)
    else match_loop text data bufLen (i - c + 1) 0
  else none
termination_by (bufLen + 1 - (i - c), bufLen - i)
decreasing_by
  · have h1 : i + 1 - (c + 1) = i - c := by omega
    rw [h1]
    exact Prod.Lex.right _ (by omega)
  · exact Prod.Lex.left _ _ (by omega)

/-- `match_narrow` (file.c:3350-3397): scan the first `cap_len` payload
bytes, folding each byte with `g_ascii_toupper` when the search is
case-insensitive, and return `(search_pos, search_len)` on a match. -/
def match_narrow_model (caseType : Bool) (text payload : List Nat)
    (capLen : Nat) : Option (Nat × Nat) :=
  let pd := payload.take capLen
  let folded := if caseType then pd.map g_ascii_toupper else pd
  match match_loop text folded pd.length 0 0 with
  | some i => some (i, text.length)
  | none => none

/-- `match_binary` (file.c:3448-3490): the same scan with no case folding. -/
def match_binary_model (pat payload : List Nat) (capLen : Nat) :
    Option (Nat × Nat) :=
  match match_loop pat (payload.take capLen) (payload.take capLen).length 0 0
      with
  | some i => some (i, pat.length)
  | none => none

/-- `pat` occurs as a contiguous substring of `data` starting at index `j`. -/
def occursAt (pat data : List Nat) (j : Nat) : Prop :=
  j + pat.length ≤ data.length ∧ (data.drop j).take pat.length = pat

instance (pat data : List Nat) (j : Nat) : Decidable (occursAt pat data j) := by
  unfold occursAt
  exact inferInstance

/-- `search_direction` (`SD_FORWARD` / `SD_BACKWARD`). -/
inductive SearchDir
  | sdForward
  | sdBackward
deriving DecidableEq, Repr

/-- The environment of one `find_packet` run (file.c:3600-3772): the frame
count, which frames currently pass the display filter, the criterion
verdict on each frame (the `match_function`, modelled as total —
`MR_ERROR` is not exercised), the wrap policy `prefs.gui_find_wrap`, the
direction, and the starting selection (`cf->current_frame`; `none` when no
packet is selected). -/
structure FindEnv where
  count : Nat
  passed : Nat → Bool
  crit : Nat → Bool
  wrap : Bool
  dir : SearchDir
  sel : Option Nat

/-- `prev_framenum` (file.c:3622-3627): the selected frame's number, or 0
when nothing is selected. -/
def FindEnv.prev (e : FindEnv) : Nat :=
  match e.sel with
  | some n => n
  | none => 0

/-- Does `frame_data_sequence_find` return a frame for this number?  The
store holds frames `1..count`. -/
def find_valid (e : FindEnv) (fn : Nat) : Bool :=
  decide (1 ≤ fn ∧ fn ≤ e.count)

/-- The advance step at the top of each `find_packet` iteration
(file.c:3679-3712): move one frame on; at the end either wrap to the
opposite end (`prefs.gui_find_wrap`) or fall back to `prev_framenum`. -/
def find_advance (e : FindEnv) (fn : Nat) : Nat :=
  match e.dir with
  | SearchDir.sdBackward =>
    if fn ≤ 1 then (if e.wrap then e.count else e.prev) else fn - 1
  | SearchDir.sdForward =>
    if fn = e.count then (if e.wrap then 1 else e.prev) else fn + 1

/-- The `fdata == start_fd` comparison (file.c:3734): with a selection it
holds exactly when the current number denotes a real frame equal to the
start frame; with no selection `start_fd` is NULL, which equals `fdata`
exactly when the current number denotes no frame. -/
def find_isStart (e : FindEnv) (fn : Nat) : Bool :=
  match e.sel with
  | some n => find_valid e fn && decide (fn = n)
  | none => !find_valid e fn

/-- The `for (;;)` loop of `find_packet` (file.c:3641-3739), without
cancellation: advance, evaluate the criterion on displayed frames
(recording each evaluation in `evals`), stop on a match (`some (some fn)`)
or upon coming back to the start frame (`some none`, the not-found
outcome).  `fuel` bounds the number of iterations; `none` means the loop
was still running when it ran out. -/
def find_loop (e : FindEnv) : Nat → Nat → List Nat →
    Option (Option Nat) × List Nat
  | 0, _, evals => (none, evals)
  | fuel + 1, fn, evals =>
    let fn2 := find_advance e fn
    if find_valid e fn2 && e.passed fn2 then
      let evals2 := evals ++ [fn2]
      if e.crit fn2 then (some (some fn2), evals2)
      else if find_isStart e fn2 then (some none, evals2)
      else find_loop e fuel fn2 evals2
    else
      if find_isStart e fn2 then (some none, evals)
      else find_loop e fuel fn2 evals

/-- `find_packet` (file.c:3600-3772): run the loop from `prev_framenum`.
`some (some fn)` = a displayed frame matched (the search succeeds and
selects it); `some none` = the scan came back to its start, the search
fails. -/
def find_packet_model (e : FindEnv) (fuel : Nat) :
    Option (Option Nat) × List Nat :=
  find_loop e fuel e.prev []

/-- A terminating no-match itinerary: the successive values of `framenum`
from a given position, none of which is the start frame except the last
one. -/
inductive Trail (e : FindEnv) : Nat → List Nat → Prop
  | last : ∀ fn p, find_advance e fn = p → find_isStart e p = true →
      Trail e fn [p]
  | cons : ∀ fn p rest, find_advance e fn = p → find_isStart e p = false →
      Trail e p rest → Trail e fn (p :: rest)

theorem add_packet_count (dfcode : Option (Nat → Bool)) (r : Nat) (fd : Frame)
    (s : CaptureState) :
    (add_packet_to_packet_list dfcode r fd s).2.count = s.count := by
  unfold add_packet_to_packet_list
  dsimp only
  split <;> (try split) <;> rfl

theorem add_packet_frames (dfcode : Option (Nat → Bool)) (r : Nat) (fd : Frame)
    (s : CaptureState) :
    (add_packet_to_packet_list dfcode r fd s).2.frames = s.frames := by
  unfold add_packet_to_packet_list
  dsimp only
  split <;> (try split) <;> rfl

theorem add_packet_redissecting (dfcode : Option (Nat → Bool)) (r : Nat)
    (fd : Frame) (s : CaptureState) :
    (add_packet_to_packet_list dfcode r fd s).2.redissecting
      = s.redissecting := by
  unfold add_packet_to_packet_list
  dsimp only
  split <;> (try split) <;> rfl

theorem add_packet_queued (dfcode : Option (Nat → Bool)) (r : Nat) (fd : Frame)
    (s : CaptureState) :
    (add_packet_to_packet_list dfcode r fd s).2.redissection_queued
      = s.redissection_queued := by
  unfold add_packet_to_packet_list
  dsimp only
  split <;> (try split) <;> rfl

theorem add_packet_num (dfcode : Option (Nat → Bool)) (r : Nat) (fd : Frame)
    (s : CaptureState) :
    (add_packet_to_packet_list dfcode r fd s).1.num = fd.num := rfl

theorem read_record_kept (rfcode dfcode : Option (Nat → Bool)) (r : Nat)
    (s : CaptureState) (h : rf_verdict rfcode r = true) :
    (read_record rfcode dfcode r s).1 = true ∧
    (read_record rfcode dfcode r s).2.count = s.count + 1 ∧
    ∃ fd, (read_record rfcode dfcode r s).2.frames = s.frames ++ [fd] ∧
      fd.num = s.count + 1 := by
  simp only [read_record, h, if_true]
  split
  · refine ⟨rfl, ?_, ?_⟩
    · rw [add_packet_count]
    · refine ⟨(add_packet_to_packet_list dfcode r (frame_data_init (s.count + 1))
        { s with count := s.count + 1 }).1, ?_, ?_⟩
      · rw [add_packet_frames]
      · rw [add_packet_num]; rfl
  · exact ⟨rfl, rfl, ⟨_, rfl, rfl⟩⟩

theorem read_record_rejected (rfcode dfcode : Option (Nat → Bool)) (r : Nat)
    (s : CaptureState) (h : rf_verdict rfcode r = false) :
    read_record rfcode dfcode r s = (false, s) := by
  simp [read_record, h]

theorem cf_read_loop_nums (size : Int) (max_records : Nat)
    (dfcode : Option (Nat → Bool)) :
    ∀ (rs : List Nat) (s : CaptureState),
      (cf_read_loop size max_records none dfcode rs s).2 = false →
      (cf_read_loop size max_records none dfcode rs s).1.frames.map Frame.num
        = s.frames.map Frame.num ++ List.range' (s.count + 1) rs.length ∧
      (cf_read_loop size max_records none dfcode rs s).1.count
        = s.count + rs.length := by
  intro rs
  induction rs with
  | nil => intro s _; simp [cf_read_loop]
  | cons r rs ih =>
    intro s hflag
    rw [cf_read_loop] at hflag ⊢
    by_cases hc : 0 ≤ size ∧ s.count = max_records
    · simp [hc] at hflag
    · simp only [if_neg hc] at hflag ⊢
      obtain ⟨hkept, hcount, fd, hfr, hnum⟩ :=
        read_record_kept none dfcode r s rfl
      obtain ⟨ih1, ih2⟩ := ih _ hflag
      constructor
      · rw [ih1, hfr, hcount, List.map_append, List.map_singleton, hnum,
          List.append_assoc, List.singleton_append, ← List.range'_succ,
          List.length_cons]
      · rw [ih2, hcount, List.length_cons]
        omega

theorem add_packet_none (r : Nat) (fd : Frame) (s : CaptureState) :
    add_packet_to_packet_list none r fd s =
      ({ fd with passed_dfilter := true },
       { s with displayed_count := s.displayed_count + 1,
                first_displayed := if s.first_displayed = 0 then fd.num
                                   else s.first_displayed,
                last_displayed := fd.num }) := by
  simp [add_packet_to_packet_list]

theorem read_record_none_none (r : Nat) (s : CaptureState)
    (h5 : s.redissecting = false)
    (h6 : s.redissection_queued = RescanType.rnone) :
    read_record none none r s =
      (true,
       { s with count := s.count + 1,
                frames := s.frames ++
                  [{ num := s.count + 1, passed_dfilter := true,
                     ref_time := false }],
                displayed_count := s.displayed_count + 1,
                first_displayed := if s.first_displayed = 0 then s.count + 1
                                   else s.first_displayed,
                last_displayed := s.count + 1 }) := by
  simp [read_record, rf_verdict, add_packet_none, frame_data_init, h5, h6]

theorem read_record_nofilter_inv (r : Nat) (c : Nat) (s : CaptureState)
    (h : noFilterInv c s) :
    noFilterInv (c + 1) (read_record none none r s).2 := by
  obtain ⟨f1, f2, f3, f4, f5, f6, f7⟩ := h
  rw [read_record_none_none r s f5 f6]
  refine ⟨by simp [f1], by simp [f2], by simp [f1], ?_, by simp [f5],
    by simp [f6], ?_⟩
  · simp only [f4, f1]
    by_cases hc : c = 0 <;> simp [hc]
  · intro f hf
    simp only [List.mem_append, List.mem_singleton] at hf
    rcases hf with hf | hf
    · exact f7 f hf
    · subst hf; rfl

theorem cf_read_loop_nofilter (size : Int) (max_records : Nat) :
    ∀ (rs : List Nat) (s : CaptureState) (c : Nat), noFilterInv c s →
      (cf_read_loop size max_records none none rs s).2 = false →
      noFilterInv (c + rs.length)
        (cf_read_loop size max_records none none rs s).1 := by
  intro rs
  induction rs with
  | nil => intro s c h _; simpa [cf_read_loop] using h
  | cons r rs ih =>
    intro s c h hflag
    rw [cf_read_loop] at hflag ⊢
    by_cases hc : 0 ≤ size ∧ s.count = max_records
    · simp [hc] at hflag
    · simp only [if_neg hc] at hflag ⊢
      have h2 := ih _ (c + 1) (read_record_nofilter_inv r c s h) hflag
      have : c + 1 + rs.length = c + (r :: rs).length := by
        simp [List.length_cons]; omega
      rwa [this] at h2

/-- C1: Frame numbers are dense and strictly increasing starting at 1.  A
record kept by `read_record` is appended to the store with number
`cf->count + 1` and bumps `cf->count`; a record rejected by the read-time
filter leaves the state untouched (it consumes no frame number); and a
successful (untruncated) ingestion of `N` records with no read-time filter
yields frame numbers exactly `1..N` in store order. -/
theorem C1_frame_numbering
    (rfcode dfcode : Option (Nat → Bool)) (r : Nat) (s : CaptureState)
    (size : Int) (max_records : Nat) (records : List Nat)
    (hflag : (cf_read_loop size max_records none dfcode records initState).2
      = false) :
    (rf_verdict rfcode r = true →
      (read_record rfcode dfcode r s).2.count = s.count + 1 ∧
      ∃ fd, (read_record rfcode dfcode r s).2.frames = s.frames ++ [fd] ∧
        fd.num = s.count + 1) ∧
    (rf_verdict rfcode r = false →
      read_record rfcode dfcode r s = (false, s)) ∧
    (cf_read_loop size max_records none dfcode records initState).1.frames.map
        Frame.num = List.range' 1 records.length := by
  refine ⟨?_, ?_, ?_⟩
  · intro h
    exact (read_record_kept rfcode dfcode r s h).2
  · exact read_record_rejected rfcode dfcode r s
  · have h := (cf_read_loop_nums size max_records dfcode records initState
      hflag).1
    simpa [initState] using h

theorem C1_frame_numbering_witness :
    (cf_read_loop (-1) 0 none none [10, 11, 12] initState).2 = false ∧
    (cf_read_loop (-1) 0 none none [10, 11, 12] initState).1.frames.map
      Frame.num = List.range' 1 3 :=
  ⟨by decide,
   (C1_frame_numbering none none 0 initState (-1) 0 [10, 11, 12]
      (by decide)).2.2⟩

/-- C9: with no read-time filter and no display filter, a batch ingestion of
`N ≥ 1` records sets every frame's `passed_dfilter` to true, and ends with
`displayed_count = N = count`, `first_displayed = 1`, `last_displayed = N`. -/
theorem C9_no_filter_all_displayed (size : Int) (max_records : Nat)
    (records : List Nat) (hne : 0 < records.length)
    (hflag : (cf_read_loop size max_records none none records initState).2
      = false) :
    (cf_read_loop size max_records none none records initState).1.count
      = records.length ∧
    (cf_read_loop size max_records none none records
      initState).1.displayed_count = records.length ∧
    (cf_read_loop size max_records none none records
      initState).1.first_displayed = 1 ∧
    (cf_read_loop size max_records none none records
      initState).1.last_displayed = records.length ∧
    ∀ f ∈ (cf_read_loop size max_records none none records initState).1.frames,
      f.passed_dfilter = true := by
  have hinit : noFilterInv 0 initState := by
    simp [noFilterInv, initState]
  have h := cf_read_loop_nofilter size max_records records initState 0 hinit
    hflag
  obtain ⟨h1, h2, h3, h4, _, _, h7⟩ := h
  refine ⟨by simpa using h1, by simpa using h2, ?_, by simpa using h3, h7⟩
  rw [h4]
  simp only [Nat.zero_add]
  rw [if_neg (by omega)]

theorem C9_no_filter_all_displayed_witness :
    0 < (List.range 10).length ∧
    (cf_read_loop (-1) 0 none none (List.range 10) initState).2 = false ∧
    (cf_read_loop (-1) 0 none none (List.range 10) initState).1.count = 10 ∧
    (cf_read_loop (-1) 0 none none (List.range 10)
      initState).1.displayed_count = 10 ∧
    (cf_read_loop (-1) 0 none none (List.range 10)
      initState).1.first_displayed = 1 ∧
    (cf_read_loop (-1) 0 none none (List.range 10)
      initState).1.last_displayed = 10 :=
  ⟨by decide, by decide,
   by
    have h := C9_no_filter_all_displayed (-1) 0 (List.range 10) (by decide)
      (by decide)
    exact ⟨by simpa using h.1, by simpa using h.2.1, h.2.2.1,
      by simpa using h.2.2.2.1⟩⟩

/-- C10: the `max_records` cap in the `cf_read` loop is checked only under
`size >= 0` (file.c:596-604).  When the file-size query failed (`size < 0`)
no truncation is ever signalled and every record is still ingested, even past
`max_records`; when `size >= 0` and the count has reached `max_records`, the
loop stops at once with the truncation flag and ingests nothing more. -/
theorem C10_cap_needs_file_size (size : Int) (max_records : Nat)
    (rfcode dfcode : Option (Nat → Bool)) (records : List Nat) (r : Nat)
    (s : CaptureState) :
    (size < 0 →
      (cf_read_loop size max_records rfcode dfcode records s).2 = false ∧
      (cf_read_loop size max_records none dfcode records s).1.count
        = s.count + records.length) ∧
    (0 ≤ size → s.count = max_records →
      cf_read_loop size max_records rfcode dfcode (r :: records) s
        = (s, true)) := by
  constructor
  · intro hneg
    have hflag : ∀ (rs : List Nat) (t : CaptureState),
        (cf_read_loop size max_records rfcode dfcode rs t).2 = false := by
      intro rs
      induction rs with
      | nil => intro t; simp [cf_read_loop]
      | cons x xs ih =>
        intro t
        rw [cf_read_loop]
        rw [if_neg (by omega)]
        exact ih _
    have hflag2 : ∀ (rs : List Nat) (t : CaptureState),
        (cf_read_loop size max_records none dfcode rs t).2 = false := by
      intro rs
      induction rs with
      | nil => intro t; simp [cf_read_loop]
      | cons x xs ih =>
        intro t
        rw [cf_read_loop]
        rw [if_neg (by omega)]
        exact ih _
    exact ⟨hflag records s,
      (cf_read_loop_nums size max_records dfcode records s (hflag2 records s)).2⟩
  · intro hpos hcount
    rw [cf_read_loop, if_pos ⟨hpos, hcount⟩]

theorem C10_cap_needs_file_size_witness :
    ((cf_read_loop (-5) 2 none none (List.range 4) initState).2 = false ∧
     (cf_read_loop (-5) 2 none none (List.range 4) initState).1.count
       = initState.count + (List.range 4).length) ∧
    cf_read_loop 7 2 none none (0 :: List.range 4)
        { initState with count := 2 } = ({ initState with count := 2 }, true) :=
  ⟨(C10_cap_needs_file_size (-5) 2 none none (List.range 4) 0 initState).1
      (by decide),
   (C10_cap_needs_file_size 7 2 none none (List.range 4) 0
      { initState with count := 2 }).2 (by decide) rfl⟩

/-- C2: a `FilterOnly` request then a `FullRedissect` request arriving while
a scan holds `read_lock` merge into the pending slot (first `RESCAN_SCAN`,
then escalated to `RESCAN_REDISSECT`); when the in-flight operation
completes, exactly one scan runs and it is a full redissection.  The same
holds when both requests arrive during an in-flight `rescan_packets` (its
merged restart is the single subsequent scan, full).  The pending slot never
downgrades: once `RESCAN_REDISSECT` is queued, no later request changes it. -/
theorem C2_pending_rescan_escalates (fuel : Nat) (sched : List (List Req))
    (rd : Bool) :
    (cf_filter_packets_model fuel sched ⟨true, RescanType.rnone, false⟩
      = some (⟨true, RescanType.rscan, false⟩, [])) ∧
    (cf_redissect_packets_model fuel sched ⟨true, RescanType.rscan, false⟩
      = some (⟨true, RescanType.rredissect, false⟩, [])) ∧
    (cf_read_finish_model 1 [] ⟨true, RescanType.rredissect, false⟩
      = some (⟨false, RescanType.rnone, false⟩, [true])) ∧
    (rescan_packets_model 2 [[Req.filterOnly, Req.fullRedissect], []] rd
        ⟨false, RescanType.rnone, false⟩
      = some (⟨false, RescanType.rnone, false⟩, [rd, true])) ∧
    (∀ (r : Req) (c : Ctl), c.queued = RescanType.rredissect →
      (applyDuringScan r c).queued = RescanType.rredissect) ∧
    (∀ (c : Ctl), c.queued = RescanType.rredissect →
      cf_filter_packets_model fuel sched c = some (c, [])) := by
  refine ⟨?_, ?_, by decide, ?_, ?_, ?_⟩
  · simp [cf_filter_packets_model]
  · simp [cf_redissect_packets_model]
  · cases rd <;> decide
  · intro r c h
    cases r with
    | filterOnly => simp [applyDuringScan, h]
    | fullRedissect =>
      simp only [applyDuringScan]
      split <;> simp [h]
  · intro c h
    simp [cf_filter_packets_model, h]

theorem C2_pending_rescan_escalates_witness :
    (applyDuringScan Req.filterOnly
      ⟨true, RescanType.rredissect, false⟩).queued = RescanType.rredissect ∧
    cf_filter_packets_model 1 [] ⟨true, RescanType.rredissect, false⟩
      = some (⟨true, RescanType.rredissect, false⟩, []) :=
  ⟨(C2_pending_rescan_escalates 1 [] false).2.2.2.2.1 Req.filterOnly
      ⟨true, RescanType.rredissect, false⟩ rfl,
   (C2_pending_rescan_escalates 1 [] false).2.2.2.2.2
      ⟨true, RescanType.rredissect, false⟩ rfl⟩

theorem lastPassing_concat (l : List (Nat × Bool)) (x : Nat × Bool) :
    lastPassing (l ++ [x]) = if x.2 then some x.1 else lastPassing l := by
  unfold lastPassing
  rw [List.filter_append]
  by_cases hx : x.2
  · simp [hx]
  · simp [hx]

theorem fold_before_repair (selNum : Nat) :
    ∀ (before : List (Nat × Bool)), (∀ b ∈ before, b.1 < selNum) →
      before.foldl (repair_step selNum) initRepair =
        { prev := before.getLast?,
          preceding := lastPassing before.dropLast,
          following := none, selectedSeen := false, selectedPassed := none } := by
  intro before
  induction before using List.reverseRecOn with
  | nil => intro _; rfl
  | append_singleton l x ih =>
    intro h
    have hx : x.1 < selNum := h x (List.mem_append_right _ (List.mem_singleton_self x))
    rw [List.foldl_append, ih (fun b hb => h b (List.mem_append_left _ hb))]
    simp only [List.foldl_cons, List.foldl_nil]
    rcases hl : l.getLast? with _ | p
    · have hnil : l = [] := List.getLast?_eq_none_iff.mp hl
      subst hnil
      simp [repair_step, initRepair, lastPassing, Nat.ne_of_lt hx]
    · have hlne : l ≠ [] := by
        intro hnil; subst hnil; simp at hl
      have hgl : l.getLast hlne = p := by
        rw [List.getLast?_eq_getLast l hlne] at hl
        exact Option.some_inj.mp hl
      have hlast : lastPassing l = if p.2 then some p.1
          else lastPassing l.dropLast := by
        conv_lhs => rw [← List.dropLast_append_getLast hlne, hgl]
        rw [lastPassing_concat]
      by_cases hp : p.2 = true
      · simp [repair_step, hl, hp, Nat.ne_of_lt hx, List.getLast?_concat,
          List.dropLast_concat, hlast]
      · simp [repair_step, hl, hp, Nat.ne_of_lt hx, List.getLast?_concat,
          List.dropLast_concat, hlast]

theorem fold_before_sel_repair (selNum : Nat) (before : List (Nat × Bool))
    (h : ∀ b ∈ before, b.1 < selNum) :
    (before ++ [(selNum, false)]).foldl (repair_step selNum) initRepair =
      { prev := some (selNum, false), preceding := lastPassing before,
        following := none, selectedSeen := true, selectedPassed := none } := by
  rw [List.foldl_append, fold_before_repair selNum before h]
  simp only [List.foldl_cons, List.foldl_nil]
  rcases hl : before.getLast? with _ | p
  · have hnil : before = [] := List.getLast?_eq_none_iff.mp hl
    subst hnil
    simp [repair_step, lastPassing]
  · have hlne : before ≠ [] := by
      intro hnil; subst hnil; simp at hl
    have hgl : before.getLast hlne = p := by
      rw [List.getLast?_eq_getLast before hlne] at hl
      exact Option.some_inj.mp hl
    have hlast : lastPassing before = if p.2 then some p.1
        else lastPassing before.dropLast := by
      conv_lhs => rw [← List.dropLast_append_getLast hlne, hgl]
      rw [lastPassing_concat]
    by_cases hp : p.2 = true
    · simp [repair_step, hl, hp, hlast]
    · simp [repair_step, hl, hp, hlast]

theorem repair_step_phase1 (acc : RepairAcc) (hseen : acc.selectedSeen = true) :
    (match acc.prev with
     | some pv =>
       if ¬ acc.selectedSeen = true ∧ pv.2 = true then
         { acc with preceding := some pv.1 }
       else acc
     | none => acc) = acc := by
  rcases hv : acc.prev with _ | pv
  · rfl
  · simp [hseen]

theorem repair_step_seen (selNum : Nat) (acc : RepairAcc) (a : Nat × Bool)
    (hseen : acc.selectedSeen = true) (ha : selNum < a.1) :
    repair_step selNum acc a =
      { acc with prev := some a,
                 following := if a.2 = true ∧ acc.following = none
                              then some a.1 else acc.following } := by
  unfold repair_step
  rw [repair_step_phase1 acc hseen]
  dsimp only
  rw [if_neg (by omega : ¬ a.1 = selNum)]
  by_cases h2 : a.2 = true ∧ acc.following = none
  · rw [if_pos ⟨h2.1, hseen, h2.2⟩, if_pos h2]
  · rw [if_neg (fun hc => h2 ⟨hc.1, hc.2.2⟩), if_neg h2]

theorem fold_after_repair (selNum : Nat) :
    ∀ (after : List (Nat × Bool)) (acc : RepairAcc),
      acc.selectedSeen = true → (∀ a ∈ after, selNum < a.1) →
      (after.foldl (repair_step selNum) acc).preceding = acc.preceding ∧
      (after.foldl (repair_step selNum) acc).selectedPassed
        = acc.selectedPassed ∧
      (after.foldl (repair_step selNum) acc).following
        = (match acc.following with
           | some n => some n
           | none => firstPassing after) := by
  intro after
  induction after with
  | nil =>
    intro acc hseen _
    rcases hf : acc.following with _ | n <;> simp [hf, firstPassing]
  | cons a rest ih =>
    intro acc hseen h
    have ha : selNum < a.1 := h a (List.mem_cons_self a rest)
    rw [List.foldl_cons, repair_step_seen selNum acc a hseen ha]
    have hrec := ih
      (RepairAcc.mk (some a) acc.preceding
        (if a.2 = true ∧ acc.following = none then some a.1
         else acc.following) acc.selectedSeen acc.selectedPassed) hseen
      (fun b hb => h b (List.mem_cons_of_mem a hb))
    refine ⟨by rw [hrec.1], by rw [hrec.2.1], ?_⟩
    rw [hrec.2.2]
    rcases hf : acc.following with _ | n
    · by_cases hpa : a.2 = true
      · simp [hpa, firstPassing, List.filter_cons]
      · simp [hpa, firstPassing, List.filter_cons]
    · simp [hf]

theorem getLast?_mem_list {α : Type} (l : List α) (m : α)
    (hm : l.getLast? = some m) : m ∈ l := by
  obtain ⟨h, hm2⟩ := List.mem_getLast?_eq_getLast (x := m) hm
  rw [hm2]
  exact List.getLast_mem h

theorem head?_mem_list {α : Type} (l : List α) (m : α)
    (hm : l.head? = some m) : m ∈ l := by
  cases l with
  | nil => simp at hm
  | cons a t =>
    simp only [List.head?_cons, Option.some_inj] at hm
    rw [← hm]
    exact List.mem_cons_self a t

theorem sorted_getLast?_max :
    ∀ (l : List Nat), l.Pairwise (· < ·) →
      ∀ m, l.getLast? = some m → ∀ x ∈ l, x ≤ m := by
  intro l
  induction l with
  | nil => intro _ m hm; simp at hm
  | cons a t ih =>
    intro hs m hm x hx
    cases t with
    | nil =>
      simp only [List.getLast?_singleton, Option.some_inj] at hm
      simp only [List.mem_singleton] at hx
      omega
    | cons b t2 =>
      rw [List.getLast?_cons_cons] at hm
      rcases List.mem_cons.mp hx with rfl | hx2
      · have hmem : m ∈ b :: t2 := getLast?_mem_list _ m hm
        exact Nat.le_of_lt ((List.pairwise_cons.mp hs).1 m hmem)
      · exact ih (List.pairwise_cons.mp hs).2 m hm x hx2

theorem sorted_head?_min (l : List Nat) (hs : l.Pairwise (· < ·))
    (m : Nat) (hm : l.head? = some m) : ∀ x ∈ l, m ≤ x := by
  cases l with
  | nil => simp at hm
  | cons a t =>
    simp only [List.head?_cons, Option.some_inj] at hm
    subst hm
    intro x hx
    rcases List.mem_cons.mp hx with rfl | hx2
    · exact Nat.le_refl x
    · exact Nat.le_of_lt ((List.pairwise_cons.mp hs).1 x hx2)

/-- C3: after a completed rescan in which the previously selected frame no
longer passes the filter, the repaired selection is the nearest passing
frame before it when one exists (even when a following candidate exists too),
otherwise the nearest passing frame after it, otherwise the selection is
cleared.  `before`/`after` are the store entries around the selected frame
with their new `passed_dfilter` values, in increasing frame order;
`lastPassing before` / `firstPassing after` are shown to be exactly those
nearest candidates. -/
theorem C3_preceding_preferred (selNum : Nat) (before after : List (Nat × Bool))
    (hb : ∀ b ∈ before, b.1 < selNum) (ha : ∀ a ∈ after, selNum < a.1)
    (hsb : (before.map Prod.fst).Pairwise (· < ·))
    (hsa : (after.map Prod.fst).Pairwise (· < ·)) :
    (repair_result selNum (before ++ (selNum, false) :: after)
       = match lastPassing before with
         | some p => some p
         | none => firstPassing after) ∧
    (∀ p, lastPassing before = some p → p < selNum ∧ (p, true) ∈ before ∧
       ∀ q ∈ before, q.2 = true → q.1 ≤ p) ∧
    (∀ f, firstPassing after = some f → selNum < f ∧ (f, true) ∈ after ∧
       ∀ q ∈ after, q.2 = true → f ≤ q.1) ∧
    (lastPassing before = none → ∀ q ∈ before, q.2 = false) ∧
    (firstPassing after = none → ∀ q ∈ after, q.2 = false) := by
  refine ⟨?_, ?_, ?_, ?_, ?_⟩
  · unfold repair_result
    have hdec : before ++ (selNum, false) :: after
        = (before ++ [(selNum, false)]) ++ after := by simp
    rw [hdec, List.foldl_append, fold_before_sel_repair selNum before hb]
    have hfa := fold_after_repair selNum after
      (RepairAcc.mk (some (selNum, false)) (lastPassing before) none true none)
      rfl ha
    dsimp only
    rw [hfa.2.1, hfa.2.2, hfa.1]
    rcases h2 : firstPassing after with _ | f <;>
      rcases h1 : lastPassing before with _ | p <;> simp
  · intro p hp
    have hmem : p ∈ (before.filter fun f => f.2).map Prod.fst :=
      getLast?_mem_list _ p hp
    obtain ⟨q, hqf, hq1⟩ := List.mem_map.mp hmem
    have hqmem := List.mem_filter.mp hqf
    have hq2 : q.2 = true := by simpa using hqmem.2
    have hqb : q ∈ before := hqmem.1
    refine ⟨hq1 ▸ hb q hqb, ?_, ?_⟩
    · have : q = (p, true) := by
        rcases q with ⟨qa, qb⟩
        simp only at hq1 hq2
        rw [hq1, hq2]
      rwa [this] at hqb
    · intro q2 hq2b hq2t
      have hsub : ((before.filter fun f => f.2).map Prod.fst).Pairwise (· < ·) := by
        refine List.Pairwise.sublist ?_ hsb
        exact List.Sublist.map Prod.fst (List.filter_sublist before)
      have hq2mem : q2.1 ∈ (before.filter fun f => f.2).map Prod.fst := by
        refine List.mem_map.mpr ⟨q2, ?_, rfl⟩
        exact List.mem_filter.mpr ⟨hq2b, by simp [hq2t]⟩
      exact sorted_getLast?_max _ hsub p hp q2.1 hq2mem
  · intro f hf
    have hmem : f ∈ (after.filter fun g => g.2).map Prod.fst :=
      head?_mem_list _ f hf
    obtain ⟨q, hqf, hq1⟩ := List.mem_map.mp hmem
    have hqmem := List.mem_filter.mp hqf
    have hq2 : q.2 = true := by simpa using hqmem.2
    have hqa : q ∈ after := hqmem.1
    refine ⟨hq1 ▸ ha q hqa, ?_, ?_⟩
    · have : q = (f, true) := by
        rcases q with ⟨qa, qb⟩
        simp only at hq1 hq2
        rw [hq1, hq2]
      rwa [this] at hqa
    · intro q2 hq2b hq2t
      have hsub : ((after.filter fun g => g.2).map Prod.fst).Pairwise (· < ·) := by
        refine List.Pairwise.sublist ?_ hsa
        exact List.Sublist.map Prod.fst (List.filter_sublist after)
      have hq2mem : q2.1 ∈ (after.filter fun g => g.2).map Prod.fst := by
        refine List.mem_map.mpr ⟨q2, ?_, rfl⟩
        exact List.mem_filter.mpr ⟨hq2b, by simp [hq2t]⟩
      exact sorted_head?_min _ hsub f hf q2.1 hq2mem
  · intro hnone q hq
    unfold lastPassing at hnone
    rw [List.getLast?_eq_none_iff, List.map_eq_nil_iff] at hnone
    have := List.filter_eq_nil_iff.mp hnone q hq
    simpa using this
  · intro hnone q hq
    unfold firstPassing at hnone
    rw [List.head?_eq_none_iff, List.map_eq_nil_iff] at hnone
    have := List.filter_eq_nil_iff.mp hnone q hq
    simpa using this

theorem C3_preceding_preferred_witness :
    repair_result 4 ([(1, false), (2, true), (3, true)] ++
        (4, false) :: [(5, true), (6, false)]) = some 3 ∧
    repair_result 4 ([(1, false), (2, false), (3, false)] ++
        (4, false) :: [(5, true), (6, false)]) = some 5 ∧
    repair_result 4 ([(1, false)] ++ (4, false) :: [(6, false)]) = none :=
  ⟨(C3_preceding_preferred 4 [(1, false), (2, true), (3, true)]
      [(5, true), (6, false)] (by decide) (by decide) (by decide)
      (by decide)).1,
   (C3_preceding_preferred 4 [(1, false), (2, false), (3, false)]
      [(5, true), (6, false)] (by decide) (by decide) (by decide)
      (by decide)).1,
   (C3_preceding_preferred 4 [(1, false)] [(6, false)] (by decide) (by decide)
      (by decide) (by decide)).1⟩

theorem rename_over_safe (env : SaveEnv) (fs : SaveFS) (ou fu : Bool)
    (w : Nat) (ip wa : Bool) (d : List Nat) (hdest : fs.dest = some d) :
    (rename_over env fs ou fu w ip wa).status ≠ CfWriteStatus.ok →
    (rename_over env fs ou fu w ip wa).fs.dest = some d ∧
    (rename_over env fs ou fu w ip wa).fs.tmp = none := by
  unfold rename_over
  by_cases hr : env.renameOk
  · rw [if_pos hr]; intro h; exact absurd rfl h
  · rw [if_neg hr]; intro _; exact ⟨hdest, rfl⟩

theorem rewrite_records_safe (cf : SaveCf) (env : SaveEnv)
    (rangeF : Nat → RangeP) (cu : Bool) (fs : SaveFS) (warned : Bool)
    (d : List Nat) (hdest : fs.dest = some d) :
    (rewrite_records cf env rangeF cu fs warned).status ≠ CfWriteStatus.ok →
    (rewrite_records cf env rangeF cu fs warned).fs.dest = some d ∧
    (rewrite_records cf env rangeF cu fs warned).fs.tmp = none := by
  unfold rewrite_records
  have hne : fs.dest ≠ none := by rw [hdest]; simp
  rw [if_pos hne]
  dsimp only
  by_cases ho : env.dumpOpenOk
  · rw [if_pos ho]
    rcases hpsp : (process_specified_records_model cf.read_lock cf.count
        env.stopAt rangeF env.readOk env.writeOk).1 with _ | _ | _
    · by_cases hc : env.closeOk
      · rw [if_pos hc]
        exact rename_over_safe env _ _ _ _ _ _ d hdest
      · rw [if_neg hc]; intro _; exact ⟨hdest, rfl⟩
    · intro _; exact ⟨hdest, rfl⟩
    · intro _; exact ⟨hdest, rfl⟩
  · rw [if_neg ho]; intro _; exact ⟨hdest, rfl⟩

theorem identity_copy_save_safe (cf : SaveCf) (env : SaveEnv) (fs : SaveFS)
    (warned : Bool) (d : List Nat) (hdest : fs.dest = some d) :
    (identity_copy_save cf env fs warned).status ≠ CfWriteStatus.ok →
    (identity_copy_save cf env fs warned).fs.dest = some d ∧
    (identity_copy_save cf env fs warned).fs.tmp = none := by
  unfold identity_copy_save
  have hne : fs.dest ≠ none := by rw [hdest]; simp
  rw [if_pos hne]
  by_cases hc : env.copyOk
  · rw [if_pos hc]
    exact rename_over_safe env _ _ _ _ _ _ d hdest
  · rw [if_neg hc]; intro _; exact ⟨hdest, rfl⟩

/-- C4: for a save or subset export whose destination already exists, any
run that does not return `CF_WRITE_OK` (failure at dump open, a record
write, close, or the final rename — and the user-abort case as well) leaves
the destination's bytes exactly as they were and leaves no `fname~` sibling
behind (assuming none existed beforehand). -/
theorem C4_safe_save_discipline (cf : SaveCf) (args : SaveArgs)
    (env : SaveEnv) (rangeF : Nat → RangeP) (fs : SaveFS) (d : List Nat)
    (hdest : fs.dest = some d) (htmp : fs.tmp = none) :
    ((cf_save_records_model cf args env fs).status ≠ CfWriteStatus.ok →
      (cf_save_records_model cf args env fs).fs.dest = some d ∧
      (cf_save_records_model cf args env fs).fs.tmp = none) ∧
    ((cf_export_specified_packets_model cf env rangeF fs).status
        ≠ CfWriteStatus.ok →
      (cf_export_specified_packets_model cf env rangeF fs).fs.dest = some d ∧
      (cf_export_specified_packets_model cf env rangeF fs).fs.tmp = none) := by
  constructor
  · unfold cf_save_records_model
    dsimp only
    split
    · by_cases ht : cf.is_tempfile
      · rw [if_pos ht]
        rcases env.moveOutcome with _ | _ | _
        · intro h; exact absurd rfl h
        · exact identity_copy_save_safe cf env fs cf.read_lock d hdest
        · intro _; exact ⟨hdest, htmp⟩
      · rw [if_neg ht]
        exact identity_copy_save_safe cf env fs cf.read_lock d hdest
    · exact rewrite_records_safe cf env _ true fs cf.read_lock d hdest
  · exact rewrite_records_safe cf env rangeF false fs false d hdest

theorem C4_safe_save_discipline_witness :
    ((cf_save_records_model ⟨false, 0, 0, true, false, 2⟩ ⟨0, 0, false, true⟩
        ⟨true, MoveR.mok, true, true, [5], [6, 6], none, fun _ => true,
         fun n => decide (n = 1), false, true⟩
        ⟨some [1, 2, 3], none, [9]⟩).status ≠ CfWriteStatus.ok →
      (cf_save_records_model ⟨false, 0, 0, true, false, 2⟩ ⟨0, 0, false, true⟩
        ⟨true, MoveR.mok, true, true, [5], [6, 6], none, fun _ => true,
         fun n => decide (n = 1), false, true⟩
        ⟨some [1, 2, 3], none, [9]⟩).fs.dest = some [1, 2, 3] ∧
      (cf_save_records_model ⟨false, 0, 0, true, false, 2⟩ ⟨0, 0, false, true⟩
        ⟨true, MoveR.mok, true, true, [5], [6, 6], none, fun _ => true,
         fun n => decide (n = 1), false, true⟩
        ⟨some [1, 2, 3], none, [9]⟩).fs.tmp = none) ∧
    (cf_save_records_model ⟨false, 0, 0, true, false, 2⟩ ⟨0, 0, false, true⟩
        ⟨true, MoveR.mok, true, true, [5], [6, 6], none, fun _ => true,
         fun n => decide (n = 1), false, true⟩
        ⟨some [1, 2, 3], none, [9]⟩).status = CfWriteStatus.error ∧
    (cf_save_records_model ⟨false, 0, 0, true, false, 2⟩ ⟨0, 0, false, true⟩
        ⟨true, MoveR.mok, true, true, [5], [6, 6], none, fun _ => true,
         fun n => decide (n = 1), false, true⟩
        ⟨some [1, 2, 3], none, [9]⟩).fs
      = ⟨some [1, 2, 3], none, [9]⟩ :=
  ⟨(C4_safe_save_discipline ⟨false, 0, 0, true, false, 2⟩ ⟨0, 0, false, true⟩
      ⟨true, MoveR.mok, true, true, [5], [6, 6], none, fun _ => true,
       fun n => decide (n = 1), false, true⟩ (fun _ => RangeP.process)
      ⟨some [1, 2, 3], none, [9]⟩ [1, 2, 3] rfl rfl).1,
   by decide, by decide⟩

theorem psr_finished_all (stopAt : Option Nat) (readOk cb : Nat → Bool) :
    ∀ (n fn k : Nat),
      (psr_go stopAt (fun _ => RangeP.process) readOk cb n fn k).1
        = PspR.finished →
      (psr_go stopAt (fun _ => RangeP.process) readOk cb n fn k).2 = k + n := by
  intro n
  induction n with
  | zero => intro fn k _; simp [psr_go]
  | succ m ih =>
    intro fn k h
    rw [psr_go] at h ⊢
    by_cases hs : stopAt = some fn
    · rw [if_pos hs] at h; simp at h
    · rw [if_neg hs] at h ⊢
      dsimp only at h ⊢
      by_cases hw : readOk fn && cb fn
      · rw [if_pos hw] at h ⊢
        rw [ih _ _ h]
        omega
      · rw [if_neg hw] at h; simp at h

theorem psp_model_finished (rl : Bool) (count : Nat) (stopAt : Option Nat)
    (readOk cb : Nat → Bool)
    (h : (process_specified_records_model rl count stopAt
      (fun _ => RangeP.process) readOk cb).1 = PspR.finished) :
    (process_specified_records_model rl count stopAt
      (fun _ => RangeP.process) readOk cb).2 = count := by
  unfold process_specified_records_model at h ⊢
  by_cases hrl : rl = true
  · simp [hrl] at h
  · rw [if_neg (by simpa using hrl)] at h ⊢
    simpa using psr_finished_all stopAt readOk cb count 1 0 h

theorem rewrite_records_not_identity (cf : SaveCf) (env : SaveEnv)
    (rangeF : Nat → RangeP) (cu : Bool) (fs : SaveFS) (warned : Bool) :
    (rewrite_records cf env rangeF cu fs warned).identityPath = false := by
  unfold rewrite_records rename_over
  dsimp only
  split <;> split <;> try rfl
  all_goals (split <;> try rfl)
  all_goals (split <;> try rfl)
  all_goals (split <;> rfl)

theorem rewrite_records_ok_written (cf : SaveCf) (env : SaveEnv) (cu : Bool)
    (fs : SaveFS) (warned : Bool)
    (h : (rewrite_records cf env (fun _ => RangeP.process) cu fs
      warned).status = CfWriteStatus.ok) :
    (rewrite_records cf env (fun _ => RangeP.process) cu fs warned).written
      = cf.count := by
  unfold rewrite_records rename_over at h ⊢
  dsimp only at h ⊢
  by_cases hd : fs.dest ≠ none
  · rw [if_pos hd] at h ⊢
    by_cases ho : env.dumpOpenOk = true
    · rw [if_pos ho] at h ⊢
      rcases hpsp : (process_specified_records_model cf.read_lock cf.count
          env.stopAt (fun _ => RangeP.process) env.readOk env.writeOk).1
        with _ | _ | _
      · dsimp only
        split <;> (try split) <;> exact psp_model_finished _ _ _ _ _ hpsp
      · rw [hpsp] at h; simp at h
      · rw [hpsp] at h; simp at h
    · rw [if_neg ho] at h; simp at h
  · rw [if_neg hd] at h ⊢
    by_cases ho : env.dumpOpenOk = true
    · rw [if_pos ho] at h ⊢
      rcases hpsp : (process_specified_records_model cf.read_lock cf.count
          env.stopAt (fun _ => RangeP.process) env.readOk env.writeOk).1
        with _ | _ | _
      · dsimp only
        split <;> (try split) <;> exact psp_model_finished _ _ _ _ _ hpsp
      · rw [hpsp] at h; simp at h
      · rw [hpsp] at h; simp at h
    · rw [if_neg ho] at h; simp at h

/-- C8: a save with `cf->unsaved_changes` set never takes the identity
move/copy path, and when it succeeds the number of records written through
the format writer equals the number of frames in the store; conversely the
identity path is taken only when the destination format and compression
match the source, no comments are being discarded, there are no unsaved
changes, and no name-resolution block prevents it. -/
theorem C8_unsaved_changes_rewrite (cf : SaveCf) (args : SaveArgs)
    (env : SaveEnv) (fs : SaveFS) (hunsaved : cf.unsaved_changes = true) :
    (cf_save_records_model cf args env fs).identityPath = false ∧
    ((cf_save_records_model cf args env fs).status = CfWriteStatus.ok →
      (cf_save_records_model cf args env fs).written = cf.count) ∧
    (∀ (cf2 : SaveCf) (args2 : SaveArgs) (env2 : SaveEnv) (fs2 : SaveFS),
      (cf_save_records_model cf2 args2 env2 fs2).identityPath = true →
      args2.save_format = cf2.cd_t ∧ args2.compression_type = cf2.compression
        ∧ args2.discard_comments = false ∧ cf2.unsaved_changes = false
        ∧ env2.blocksOk = true) := by
  have hnid : ¬(args.save_format = cf.cd_t
      ∧ args.compression_type = cf.compression
      ∧ args.discard_comments = false ∧ cf.unsaved_changes = false
      ∧ env.blocksOk = true) := by
    rw [hunsaved]; tauto
  refine ⟨?_, ?_, ?_⟩
  · unfold cf_save_records_model
    dsimp only
    rw [if_neg hnid]
    exact rewrite_records_not_identity cf env _ true fs cf.read_lock
  · unfold cf_save_records_model
    dsimp only
    rw [if_neg hnid]
    exact rewrite_records_ok_written cf env true fs cf.read_lock
  · intro cf2 args2 env2 fs2 hip
    unfold cf_save_records_model at hip
    dsimp only at hip
    by_cases hid : args2.save_format = cf2.cd_t
        ∧ args2.compression_type = cf2.compression
        ∧ args2.discard_comments = false ∧ cf2.unsaved_changes = false
        ∧ env2.blocksOk = true
    · exact hid
    · rw [if_neg hid] at hip
      rw [rewrite_records_not_identity cf2 env2 _ true fs2 cf2.read_lock]
        at hip
      exact absurd hip (by simp)

theorem C8_unsaved_changes_rewrite_witness :
    (cf_save_records_model ⟨false, 0, 0, true, false, 4⟩ ⟨0, 0, false, true⟩
      ⟨true, MoveR.mok, true, true, [5], [6, 6], none, fun _ => true,
       fun _ => true, true, true⟩
      ⟨some [1], none, [9]⟩).identityPath = false ∧
    ((cf_save_records_model ⟨false, 0, 0, true, false, 4⟩ ⟨0, 0, false, true⟩
      ⟨true, MoveR.mok, true, true, [5], [6, 6], none, fun _ => true,
       fun _ => true, true, true⟩
      ⟨some [1], none, [9]⟩).status = CfWriteStatus.ok →
     (cf_save_records_model ⟨false, 0, 0, true, false, 4⟩ ⟨0, 0, false, true⟩
      ⟨true, MoveR.mok, true, true, [5], [6, 6], none, fun _ => true,
       fun _ => true, true, true⟩
      ⟨some [1], none, [9]⟩).written = 4) :=
  ⟨(C8_unsaved_changes_rewrite ⟨false, 0, 0, true, false, 4⟩ ⟨0, 0, false, true⟩
      ⟨true, MoveR.mok, true, true, [5], [6, 6], none, fun _ => true,
       fun _ => true, true, true⟩ ⟨some [1], none, [9]⟩ rfl).1,
   (C8_unsaved_changes_rewrite ⟨false, 0, 0, true, false, 4⟩ ⟨0, 0, false, true⟩
      ⟨true, MoveR.mok, true, true, [5], [6, 6], none, fun _ => true,
       fun _ => true, true, true⟩ ⟨some [1], none, [9]⟩ rfl).2.1⟩

theorem save_model_warned (cf : SaveCf) (args : SaveArgs) (env : SaveEnv)
    (fs : SaveFS) :
    (cf_save_records_model cf args env fs).warned = cf.read_lock := by
  unfold cf_save_records_model identity_copy_save rewrite_records rename_over
  dsimp only
  split <;> (try split) <;> (try split) <;> (try split) <;> (try split) <;>
    (try split) <;> rfl

/-- C5 counterexample: a `cf_save_records` call made while `cf->read_lock`
is held is *not* rejected: the guard at file.c:4463-4465 only logs a
warning, and on the identity path the save proceeds to completion,
returning `CF_WRITE_OK` and replacing the destination file's bytes. -/
theorem C5_busy_save_not_rejected :
    (cf_save_records_model ⟨true, 0, 0, false, false, 3⟩ ⟨0, 0, false, true⟩
      ⟨true, MoveR.mok, true, true, [], [], none, fun _ => true, fun _ => true,
       true, true⟩ ⟨some [7], none, [1, 2]⟩).status = CfWriteStatus.ok ∧
    (cf_save_records_model ⟨true, 0, 0, false, false, 3⟩ ⟨0, 0, false, true⟩
      ⟨true, MoveR.mok, true, true, [], [], none, fun _ => true, fun _ => true,
       true, true⟩ ⟨some [7], none, [1, 2]⟩).warned = true ∧
    (cf_save_records_model ⟨true, 0, 0, false, false, 3⟩ ⟨0, 0, false, true⟩
      ⟨true, MoveR.mok, true, true, [], [], none, fun _ => true, fun _ => true,
       true, true⟩ ⟨some [7], none, [1, 2]⟩).fs.dest = some [1, 2] := by
  refine ⟨?_, ?_, ?_⟩ <;> rfl

/-- C5 (amended): of the guarded entry points, `cf_read` and
`process_specified_records` reject a call made while `cf->read_lock` is
held immediately with an error (`CF_READ_ERROR` / `PSP_FAILED`) and mutate
nothing; `cf_save_records`, however, only emits a warning and proceeds. -/
theorem C5_busy_guard (size : Int) (max_records : Nat)
    (rfcode dfcode : Option (Nat → Bool)) (records : List Nat) (s : Session)
    (hs : s.read_lock = true) (count : Nat) (stopAt : Option Nat)
    (rangeF : Nat → RangeP) (readOk cb : Nat → Bool) (cf : SaveCf)
    (args : SaveArgs) (env : SaveEnv) (fs : SaveFS)
    (hcf : cf.read_lock = true) :
    cf_read_model size max_records rfcode dfcode records s
      = (CfReadStatus.rerror, s) ∧
    process_specified_records_model true count stopAt rangeF readOk cb
      = (PspR.failed, 0) ∧
    (cf_save_records_model cf args env fs).warned = true := by
  refine ⟨?_, ?_, ?_⟩
  · simp [cf_read_model, hs]
  · simp [process_specified_records_model]
  · rw [save_model_warned, hcf]

theorem C5_busy_guard_witness :
    cf_read_model (-1) 0 none none [3, 4] ⟨initState, true⟩
      = (CfReadStatus.rerror, ⟨initState, true⟩) ∧
    process_specified_records_model true 5 none (fun _ => RangeP.process)
      (fun _ => true) (fun _ => true) = (PspR.failed, 0) ∧
    (cf_save_records_model ⟨true, 0, 0, false, false, 3⟩ ⟨0, 0, false, true⟩
      ⟨true, MoveR.mok, true, true, [], [], none, fun _ => true, fun _ => true,
       true, true⟩ ⟨some [7], none, [1, 2]⟩).warned = true :=
  C5_busy_guard (-1) 0 none none [3, 4] ⟨initState, true⟩ rfl 5 none
    (fun _ => RangeP.process) (fun _ => true) (fun _ => true)
    ⟨true, 0, 0, false, false, 3⟩ ⟨0, 0, false, true⟩
    ⟨true, MoveR.mok, true, true, [], [], none, fun _ => true, fun _ => true,
     true, true⟩ ⟨some [7], none, [1, 2]⟩ rfl

theorem match_loop_exit_spec (text data : List Nat) (i c : Nat)
    (hge : ¬ i < data.length) (hc : c ≤ i) (hi : i ≤ data.length)
    (hclen : c < text.length)
    (hno : ∀ j, j < i - c → ¬ occursAt text data j) :
    (match_loop text data data.length i c = none ↔
      ∀ j, ¬ occursAt text data j) ∧
    (∀ p, match_loop text data data.length i c = some p →
      ∃ j, occursAt text data j ∧ p = j + text.length - 1 ∧
        ∀ j2, j2 < j → ¬ occursAt text data j2) := by
  have hres : match_loop text data data.length i c = none := by
    unfold match_loop
    rw [dif_neg hge]
  constructor
  · rw [hres]
    constructor
    · intro _ j
      by_cases hj : j < i - c
      · exact hno j hj
      · rintro ⟨hle, _⟩
        omega
    · intro _; rfl
  · intro p hp
    rw [hres] at hp
    exact absurd hp (by simp)

theorem match_loop_spec_aux (text data : List Nat) (hlen : 0 < text.length) :
    ∀ (n1 : Nat), ∀ (n2 : Nat), ∀ (i c : Nat),
      data.length + 1 - (i - c) ≤ n1 → data.length - i ≤ n2 →
      c ≤ i → i ≤ data.length → c < text.length →
      (data.drop (i - c)).take c = text.take c →
      (∀ j, j < i - c → ¬ occursAt text data j) →
      ((match_loop text data data.length i c = none ↔
          ∀ j, ¬ occursAt text data j) ∧
       (∀ p, match_loop text data data.length i c = some p →
          ∃ j, occursAt text data j ∧ p = j + text.length - 1 ∧
            ∀ j2, j2 < j → ¬ occursAt text data j2)) := by
  intro n1
  induction n1 with
  | zero =>
    intro n2 i c h1 _ hc hi _ _ _
    exact absurd h1 (by omega)
  | succ m1 ih1 =>
    intro n2
    induction n2 with
    | zero =>
      intro i c h1 h2 hc hi hclen hpre hno
      exact match_loop_exit_spec text data i c (by omega) hc hi hclen hno
    | succ m2 ih2 =>
      intro i c h1 h2 hc hi hclen hpre hno
      by_cases hlt : i < data.length
      · unfold match_loop
        rw [dif_pos hlt]
        by_cases hbyte : data.getD i 0 = text.getD c 0
        · rw [if_pos hbyte]
          have hbyte2 : data[i]? = text[c]? := by
            rw [List.getD_eq_getElem?_getD, List.getD_eq_getElem?_getD]
              at hbyte
            rw [List.getElem?_eq_getElem hlt,
              List.getElem?_eq_getElem hclen] at hbyte ⊢
            simpa using hbyte
          have hpre2 : (data.drop (i - c)).take (c + 1) = text.take (c + 1) := by
            rw [List.take_succ, List.take_succ, hpre, List.getElem?_drop]
            rw [show i - c + c = i from by omega, hbyte2]
          by_cases hfin : c + 1 = text.length
          · rw [if_pos hfin]
            have hocc : occursAt text data (i - c) := by
              constructor
              · omega
              · rw [← hfin, hpre2, hfin]
                exact List.take_length text
            refine ⟨?_, ?_⟩
            · constructor
              · intro habs; exact absurd habs (by simp)
              · intro hall; exact absurd hocc (hall (i - c))
            · intro p hp
              have hpi : i = p := by simpa using hp
              refine ⟨i - c, hocc, by omega, fun j2 hj2 => hno j2 hj2⟩
          · rw [if_neg hfin]
            have hrec := ih2 (i + 1) (c + 1) (by omega) (by omega) (by omega)
              (by omega) (by omega)
              (by rw [show i + 1 - (c + 1) = i - c from by omega]; exact hpre2)
              (by
                intro j hj
                exact hno j (by omega))
            exact hrec
        · rw [if_neg hbyte]
          have hnotocc : ¬ occursAt text data (i - c) := by
            rintro ⟨hle, htk⟩
            apply hbyte
            have h4 : ((data.drop (i - c)).take text.length)[c]? = text[c]? := by
              rw [htk]
            rw [List.getElem?_take_of_lt hclen, List.getElem?_drop] at h4
            rw [show i - c + c = i from by omega] at h4
            rw [List.getElem?_eq_getElem hlt,
              List.getElem?_eq_getElem hclen] at h4
            rw [List.getD_eq_getElem?_getD, List.getD_eq_getElem?_getD]
            rw [List.getElem?_eq_getElem hlt,
              List.getElem?_eq_getElem hclen]
            simpa using h4
          have hrec := ih1 data.length (i - c + 1) 0 (by omega) (by omega)
            (by omega) (by omega) hlen (by simp)
            (by
              intro j hj
              by_cases hj2 : j < i - c
              · exact hno j hj2
              · rw [show j = i - c from by omega]
                exact hnotocc)
          exact hrec
      · exact match_loop_exit_spec text data i c hlt hc hi hclen hno

theorem match_loop_spec (text data : List Nat) (hlen : 0 < text.length) :
    (match_loop text data data.length 0 0 = none ↔
      ∀ j, ¬ occursAt text data j) ∧
    (∀ p, match_loop text data data.length 0 0 = some p →
      ∃ j, occursAt text data j ∧ p = j + text.length - 1 ∧
        ∀ j2, j2 < j → ¬ occursAt text data j2) :=
  match_loop_spec_aux text data hlen (data.length + 1) data.length 0 0
    (by omega) (by omega) (by omega) (by omega) hlen (by simp)
    (fun j hj => absurd hj (by omega))

theorem matcher_result_iff (text data : List Nat) (hlen : 0 < text.length) :
    ((match_loop text data data.length 0 0).isSome = true ↔
      ∃ j, occursAt text data j) ∧
    (∀ p, match_loop text data data.length 0 0 = some p →
      ∃ j, occursAt text data j ∧ p = j + text.length - 1 ∧
        ∀ j2, j2 < j → ¬ occursAt text data j2) := by
  obtain ⟨h1, h2⟩ := match_loop_spec text data hlen
  constructor
  · constructor
    · intro h
      rcases Option.isSome_iff_exists.mp h with ⟨p, hp⟩
      obtain ⟨j, hj, _⟩ := h2 p hp
      exact ⟨j, hj⟩
    · rintro ⟨j, hj⟩
      by_contra hnone
      have : match_loop text data data.length 0 0 = none :=
        Option.not_isSome_iff_eq_none.mp (by simpa using hnone)
      exact h1.mp this j hj
  · exact h2

/-- C7: for a non-empty pattern, `match_narrow` and `match_binary` report a
match exactly when the pattern occurs contiguously within the first
`cap_len` payload bytes — the narrow matcher folding each payload byte with
`g_ascii_toupper` in case-insensitive mode (so, under the caller's contract
that the pattern is already upper-cased, both sides are compared
case-folded); on a match `search_pos` is the index of the last matched byte
of the (leftmost) occurrence and `search_len` is the pattern length; and on
a mismatching byte the scan restarts at `i - c + 1` with the partial-match
counter reset (classic naive restart). -/
theorem C7_naive_byte_matchers (caseType : Bool) (text payload : List Nat)
    (capLen : Nat) (hlen : 0 < text.length) :
    ((match_binary_model text payload capLen).isSome = true ↔
      ∃ j, occursAt text (payload.take capLen) j) ∧
    ((match_narrow_model false text payload capLen).isSome = true ↔
      ∃ j, occursAt text (payload.take capLen) j) ∧
    ((match_narrow_model true text payload capLen).isSome = true ↔
      ∃ j, occursAt text ((payload.take capLen).map g_ascii_toupper) j) ∧
    (text.map g_ascii_toupper = text →
      ((match_narrow_model true text payload capLen).isSome = true ↔
        ∃ j, occursAt (text.map g_ascii_toupper)
          ((payload.take capLen).map g_ascii_toupper) j)) ∧
    (∀ p l, match_binary_model text payload capLen = some (p, l) →
      l = text.length ∧ ∃ j, occursAt text (payload.take capLen) j ∧
        p = j + text.length - 1 ∧
        ∀ j2, j2 < j → ¬ occursAt text (payload.take capLen) j2) ∧
    (∀ p l, match_narrow_model caseType text payload capLen = some (p, l) →
      l = text.length ∧ ∃ j,
        occursAt text (if caseType then
          (payload.take capLen).map g_ascii_toupper
          else payload.take capLen) j ∧
        p = j + text.length - 1 ∧
        ∀ j2, j2 < j → ¬ occursAt text (if caseType then
          (payload.take capLen).map g_ascii_toupper
          else payload.take capLen) j2) ∧
    (∀ (data : List Nat) (bufLen i c : Nat), i < bufLen →
      ¬ data.getD i 0 = text.getD c 0 →
      match_loop text data bufLen i c
        = match_loop text data bufLen (i - c + 1) 0) := by
  have hb := matcher_result_iff text (payload.take capLen) hlen
  have hf := matcher_result_iff text ((payload.take capLen).map g_ascii_toupper)
    hlen
  have hmaplen : ((payload.take capLen).map g_ascii_toupper).length
      = (payload.take capLen).length := List.length_map _ _
  refine ⟨?_, ?_, ?_, ?_, ?_, ?_, ?_⟩
  · unfold match_binary_model
    rcases hloop : match_loop text (payload.take capLen)
        (payload.take capLen).length 0 0 with _ | i
    · simp only [hloop]
      rw [hloop] at hb
      simpa using hb.1
    · simp only [hloop]
      rw [hloop] at hb
      simpa using hb.1
  · unfold match_narrow_model
    dsimp only
    rw [if_neg (by simp)]
    rcases hloop : match_loop text (payload.take capLen)
        (payload.take capLen).length 0 0 with _ | i
    · simp only [hloop]
      rw [hloop] at hb
      simpa using hb.1
    · simp only [hloop]
      rw [hloop] at hb
      simpa using hb.1
  · unfold match_narrow_model
    dsimp only
    rw [if_pos rfl]
    rw [← hmaplen]
    rcases hloop : match_loop text ((payload.take capLen).map g_ascii_toupper)
        ((payload.take capLen).map g_ascii_toupper).length 0 0 with _ | i
    · simp only [hloop]
      rw [hloop] at hf
      simpa using hf.1
    · simp only [hloop]
      rw [hloop] at hf
      simpa using hf.1
  · intro htext
    unfold match_narrow_model
    dsimp only
    rw [if_pos rfl, htext]
    rw [← hmaplen]
    rcases hloop : match_loop text ((payload.take capLen).map g_ascii_toupper)
        ((payload.take capLen).map g_ascii_toupper).length 0 0 with _ | i
    · simp only [hloop]
      rw [hloop] at hf
      simpa using hf.1
    · simp only [hloop]
      rw [hloop] at hf
      simpa using hf.1
  · intro p l hp
    unfold match_binary_model at hp
    rcases hloop : match_loop text (payload.take capLen)
        (payload.take capLen).length 0 0 with _ | i
    · rw [hloop] at hp; simp at hp
    · rw [hloop] at hp
      simp only [Option.some_inj, Prod.mk.injEq] at hp
      obtain ⟨j, hj⟩ := hb.2 i hloop
      exact ⟨hp.2.symm, j, hj.1, hp.1 ▸ hj.2.1, hj.2.2⟩
  · intro p l hp
    rcases caseType with _ | _
    · unfold match_narrow_model at hp
      dsimp only at hp
      rw [if_neg (by simp)] at hp
      rcases hloop : match_loop text (payload.take capLen)
          (payload.take capLen).length 0 0 with _ | i
      · rw [hloop] at hp; simp at hp
      · rw [hloop] at hp
        simp only [Option.some_inj, Prod.mk.injEq] at hp
        obtain ⟨j, hj⟩ := hb.2 i hloop
        rw [if_neg (by simp)]
        exact ⟨hp.2.symm, j, hj.1, hp.1 ▸ hj.2.1, hj.2.2⟩
    · unfold match_narrow_model at hp
      dsimp only at hp
      rw [if_pos rfl] at hp
      rcases hloop : match_loop text
          ((payload.take capLen).map g_ascii_toupper)
          ((payload.take capLen).map g_ascii_toupper).length 0 0 with _ | i
      · rw [← hmaplen, hloop] at hp; simp at hp
      · rw [← hmaplen, hloop] at hp
        simp only [Option.some_inj, Prod.mk.injEq] at hp
        obtain ⟨j, hj⟩ := hf.2 i hloop
        rw [if_pos rfl]
        exact ⟨hp.2.symm, j, hj.1, hp.1 ▸ hj.2.1, hj.2.2⟩
  · intro data bufLen i c hi hbyte
    conv_lhs => rw [match_loop]
    rw [dif_pos hi, if_neg hbyte]

theorem C7_naive_byte_matchers_witness :
    0 < [66, 67].length ∧
    (match_binary_model [66, 67] [65, 66, 67, 68] 3).isSome = true ∧
    match_binary_model [66, 67] [65, 66, 67, 68] 3 = some (2, 2) :=
  ⟨by decide,
   (C7_naive_byte_matchers false [66, 67] [65, 66, 67, 68] 3
      (by decide)).1.mpr ⟨1, by decide⟩,
   by simp [match_binary_model, match_loop]⟩

theorem trail_run (e : FindEnv) (hm : ∀ n, e.crit n = false) :
    ∀ (path : List Nat) (fn : Nat), Trail e fn path →
      ∀ (fuel : Nat), path.length ≤ fuel → ∀ (evals : List Nat),
        find_loop e fuel fn evals
          = (some none,
             evals ++ path.filter (fun x => find_valid e x && e.passed x)) := by
  intro path fn ht
  induction ht with
  | last fn p hadv hstart =>
    intro fuel hfuel evals
    match fuel, hfuel with
    | fuel + 1, _ =>
      rw [find_loop]
      dsimp only
      rw [hadv]
      by_cases hvp : find_valid e p && e.passed p
      · rw [if_pos hvp, hm p, if_neg (by simp), if_pos hstart]
        simp [List.filter_cons, hvp]
      · rw [if_neg hvp, if_pos hstart]
        simp only [List.filter_cons]
        rw [if_neg (by simpa using hvp)]
        simp
  | cons fn p rest hadv hstart hrest ih =>
    intro fuel hfuel evals
    match fuel, hfuel with
    | fuel + 1, hfuel =>
      rw [find_loop]
      dsimp only
      rw [hadv]
      by_cases hvp : find_valid e p && e.passed p
      · rw [if_pos hvp, hm p, if_neg (by simp), if_neg (by simp [hstart])]
        rw [ih fuel (by simpa using hfuel) (evals ++ [p])]
        simp only [List.filter_cons, hvp, if_pos rfl]
        simp
      · rw [if_neg hvp, if_neg (by simp [hstart])]
        rw [ih fuel (by simpa using hfuel) evals]
        simp only [List.filter_cons]
        rw [if_neg (by simpa using hvp)]

theorem trail_forward_steps (e : FindEnv) (hdir : e.dir = SearchDir.sdForward)
    (tail : List Nat) :
    ∀ (k fn : Nat), fn + k ≤ e.count →
      (∀ x, fn < x → x ≤ fn + k → find_isStart e x = false) →
      Trail e (fn + k) tail →
      Trail e fn (List.range' (fn + 1) k ++ tail) := by
  intro k
  induction k with
  | zero => intro fn _ _ h; simpa using h
  | succ m ih =>
    intro fn hle hns htail
    have hadv : find_advance e fn = fn + 1 := by
      unfold find_advance
      rw [hdir]
      dsimp only
      rw [if_neg (by omega)]
    rw [List.range'_succ]
    exact Trail.cons fn (fn + 1) _ hadv
      (hns (fn + 1) (by omega) (by omega))
      (by
        have := ih (fn + 1) (by omega)
          (fun x hx1 hx2 => hns x (by omega) (by omega))
          (by rw [show fn + 1 + m = fn + (m + 1) from by omega]; exact htail)
        simpa using this)

theorem trail_backward_steps (e : FindEnv)
    (hdir : e.dir = SearchDir.sdBackward) (tail : List Nat) :
    ∀ (k fn : Nat), k < fn →
      (∀ x, fn - k ≤ x → x < fn → find_isStart e x = false) →
      Trail e (fn - k) tail →
      Trail e fn ((List.range' (fn - k) k).reverse ++ tail) := by
  intro k
  induction k with
  | zero => intro fn _ _ h; simpa using h
  | succ m ih =>
    intro fn hlt hns htail
    have hadv : find_advance e fn = fn - 1 := by
      unfold find_advance
      rw [hdir]
      dsimp only
      rw [if_neg (by omega)]
    have hsplit : (List.range' (fn - (m + 1)) (m + 1)).reverse
        = (fn - 1) :: (List.range' (fn - 1 - m) m).reverse := by
      have h1 : fn - (m + 1) + 1 * m = fn - 1 := by omega
      have h2 : fn - 1 - m = fn - (m + 1) := by omega
      rw [List.range'_concat, List.reverse_append, h1, h2]
      simp
    rw [hsplit]
    have hm2 : m < fn - 1 := by omega
    exact Trail.cons fn (fn - 1) _ hadv
      (hns (fn - 1) (by omega) (by omega))
      (by
        have := ih (fn - 1) hm2
          (fun x hx1 hx2 => hns x (by omega) (by omega))
          (by rw [show fn - 1 - m = fn - (m + 1) from by omega]; exact htail)
        simpa using this)

theorem isStart_some (e : FindEnv) (s : Nat) (hs : e.sel = some s) (x : Nat) :
    find_isStart e x = (find_valid e x && decide (x = s)) := by
  simp [find_isStart, hs]

theorem isStart_none (e : FindEnv) (hs : e.sel = none) (x : Nat) :
    find_isStart e x = !find_valid e x := by
  simp [find_isStart, hs]

theorem isStart_some_ne (e : FindEnv) (s : Nat) (hs : e.sel = some s) (x : Nat)
    (hne : x ≠ s) : find_isStart e x = false := by
  rw [isStart_some e s hs x]
  simp [hne]

theorem isStart_some_self (e : FindEnv) (s : Nat) (hs : e.sel = some s)
    (h1 : 1 ≤ s) (h2 : s ≤ e.count) : find_isStart e s = true := by
  rw [isStart_some e s hs s]
  simp [find_valid, h1, h2]

theorem find_noMatch_run (e : FindEnv) (hm : ∀ n, e.crit n = false)
    (path : List Nat) (ht : Trail e e.prev path) (hnd : path.Nodup)
    (fuel : Nat) (hf : path.length ≤ fuel) :
    ∃ evals, find_packet_model e fuel = (some none, evals) ∧ evals.Nodup ∧
      ∀ x ∈ evals, (1 ≤ x ∧ x ≤ e.count) ∧ e.passed x = true := by
  refine ⟨path.filter (fun x => find_valid e x && e.passed x), ?_, ?_, ?_⟩
  · have := trail_run e hm path e.prev ht fuel hf []
    simpa [find_packet_model] using this
  · exact hnd.filter _
  · intro x hx
    obtain ⟨-, hcond⟩ := List.mem_filter.mp hx
    rw [Bool.and_eq_true] at hcond
    exact ⟨by simpa [find_valid] using hcond.1, hcond.2⟩

/-- The forward clamp itinerary with no selection: `1..count`, then the
clamp back to `prev_framenum = 0`, whose missing frame equals the NULL
start frame. -/
theorem trail_forward_clamp_nosel (e : FindEnv)
    (hdir : e.dir = SearchDir.sdForward) (hw : e.wrap = false)
    (hs : e.sel = none) :
    Trail e 0 (List.range' 1 e.count ++ [0]) := by
  have hlast : Trail e e.count [0] := by
    refine Trail.last e.count 0 ?_ ?_
    · unfold find_advance
      rw [hdir]
      dsimp only
      rw [if_pos rfl, hw, if_neg (by simp), FindEnv.prev, hs]
    · rw [isStart_none e hs]
      simp [find_valid]
  have := trail_forward_steps e hdir [0] e.count 0 (by omega)
    (fun x hx1 hx2 => by
      rw [isStart_none e hs]
      simp only [find_valid]
      simp
      omega)
    (by simpa using hlast)
  simpa using this

/-- The backward clamp itinerary with no selection: the very first advance
clamps `framenum` to 0, whose missing frame equals the NULL start frame. -/
theorem trail_backward_clamp_nosel (e : FindEnv)
    (hdir : e.dir = SearchDir.sdBackward) (hw : e.wrap = false)
    (hs : e.sel = none) :
    Trail e 0 [0] := by
  refine Trail.last 0 0 ?_ ?_
  · unfold find_advance
    rw [hdir]
    dsimp only
    rw [if_pos (by omega), hw, if_neg (by simp), FindEnv.prev, hs]
  · rw [isStart_none e hs]
    simp [find_valid]

/-- The forward clamp itinerary from selection `s`: `s+1..count`, then the
clamp back to `s`, which is the start frame. -/
theorem trail_forward_clamp_sel (e : FindEnv)
    (hdir : e.dir = SearchDir.sdForward) (hw : e.wrap = false)
    (s : Nat) (hs : e.sel = some s) (h1 : 1 ≤ s) (h2 : s ≤ e.count) :
    Trail e s (List.range' (s + 1) (e.count - s) ++ [s]) := by
  have hlast : Trail e e.count [s] := by
    refine Trail.last e.count s ?_ (isStart_some_self e s hs h1 h2)
    unfold find_advance
    rw [hdir]
    dsimp only
    rw [if_pos rfl, hw, if_neg (by simp), FindEnv.prev, hs]
  have := trail_forward_steps e hdir [s] (e.count - s) s (by omega)
    (fun x hx1 hx2 => isStart_some_ne e s hs x (by omega))
    (by rw [show s + (e.count - s) = e.count from by omega]; exact hlast)
  exact this

/-- The forward wrap itinerary from selection `s`: `s+1..count`, wrap to 1,
then `1..s`, ending on the start frame. -/
theorem trail_forward_wrap_sel (e : FindEnv)
    (hdir : e.dir = SearchDir.sdForward) (hw : e.wrap = true)
    (s : Nat) (hs : e.sel = some s) (h1 : 1 ≤ s) (h2 : s ≤ e.count) :
    Trail e s (List.range' (s + 1) (e.count - s) ++ List.range' 1 s) := by
  have hadvc : find_advance e e.count = 1 := by
    unfold find_advance
    rw [hdir]
    dsimp only
    rw [if_pos rfl, hw, if_pos rfl]
  have hmid : Trail e e.count (List.range' 1 s) := by
    by_cases hone : s = 1
    · subst hone
      exact Trail.last e.count 1 hadvc (isStart_some_self e 1 hs h1 h2)
    · obtain ⟨m, rfl⟩ : ∃ m, s = m + 2 := ⟨s - 2, by omega⟩
      have hasc : Trail e 1 (List.range' 2 m ++ [m + 2]) := by
        have hnec : ¬ (m + 1 = e.count) := by omega
        have hlast : Trail e (m + 1) [m + 2] := by
          refine Trail.last (m + 1) (m + 2) ?_
            (isStart_some_self e (m + 2) hs h1 h2)
          unfold find_advance
          rw [hdir]
          dsimp only
          rw [if_neg hnec]
        have := trail_forward_steps e hdir [m + 2] m 1 (by omega)
          (fun x hx1 hx2 => isStart_some_ne e (m + 2) hs x (by omega))
          (by rw [show 1 + m = m + 1 from by omega]; exact hlast)
        simpa using this
      have hshape : List.range' 1 (m + 2)
          = 1 :: (List.range' 2 m ++ [m + 2]) := by
        have hx : 2 + 1 * m = m + 2 := by omega
        rw [List.range'_succ, List.range'_concat, hx]
      rw [hshape]
      exact Trail.cons e.count 1 _ hadvc
        (isStart_some_ne e (m + 2) hs 1 (by omega)) hasc
  have := trail_forward_steps e hdir (List.range' 1 s) (e.count - s) s
    (by omega) (fun x hx1 hx2 => isStart_some_ne e s hs x (by omega))
    (by rw [show s + (e.count - s) = e.count from by omega]; exact hmid)
  exact this

/-- The backward clamp itinerary from selection `s`: `s-1..1`, then the
clamp back to `s`, which is the start frame. -/
theorem trail_backward_clamp_sel (e : FindEnv)
    (hdir : e.dir = SearchDir.sdBackward) (hw : e.wrap = false)
    (s : Nat) (hs : e.sel = some s) (h1 : 1 ≤ s) (h2 : s ≤ e.count) :
    Trail e s ((List.range' 1 (s - 1)).reverse ++ [s]) := by
  have hlast : Trail e 1 [s] := by
    refine Trail.last 1 s ?_ (isStart_some_self e s hs h1 h2)
    unfold find_advance
    rw [hdir]
    dsimp only
    rw [if_pos (by omega), hw, if_neg (by simp), FindEnv.prev, hs]
  have := trail_backward_steps e hdir [s] (s - 1) s (by omega)
    (fun x hx1 hx2 => isStart_some_ne e s hs x (by omega))
    (by rw [show s - (s - 1) = 1 from by omega]; exact hlast)
  rw [show s - (s - 1) = 1 from by omega] at this
  exact this

/-- The backward wrap itinerary from selection `s`: `s-1..1`, wrap to
`count`, then `count..s`, ending on the start frame. -/
theorem trail_backward_wrap_sel (e : FindEnv)
    (hdir : e.dir = SearchDir.sdBackward) (hw : e.wrap = true)
    (s : Nat) (hs : e.sel = some s) (h1 : 1 ≤ s) (h2 : s ≤ e.count) :
    Trail e s ((List.range' 1 (s - 1)).reverse
      ++ (List.range' s (e.count - s + 1)).reverse) := by
  have hadv1 : find_advance e 1 = e.count := by
    unfold find_advance
    rw [hdir]
    dsimp only
    rw [if_pos (by omega), hw, if_pos rfl]
  have hmid : Trail e 1 ((List.range' s (e.count - s + 1)).reverse) := by
    by_cases htop : e.count = s
    · have hone : (List.range' s (e.count - s + 1)).reverse = [s] := by
        rw [htop, Nat.sub_self]
        simp
      rw [hone]
      exact Trail.last 1 s (htop ▸ hadv1) (isStart_some_self e s hs h1 h2)
    · obtain ⟨d, hd⟩ : ∃ d, e.count = s + d + 1 := ⟨e.count - s - 1, by omega⟩
      have hdesc : Trail e e.count
          ((List.range' (s + 1) d).reverse ++ [s]) := by
        have hlast : Trail e (s + 1) [s] := by
          refine Trail.last (s + 1) s ?_ (isStart_some_self e s hs h1 h2)
          unfold find_advance
          rw [hdir]
          dsimp only
          rw [if_neg (by omega)]
          omega
        have := trail_backward_steps e hdir [s] d e.count (by omega)
          (fun x hx1 hx2 => isStart_some_ne e s hs x (by omega))
          (by rw [show e.count - d = s + 1 from by omega]; exact hlast)
        rw [show e.count - d = s + 1 from by omega] at this
        exact this
      have hshape : (List.range' s (e.count - s + 1)).reverse
          = e.count :: ((List.range' (s + 1) d).reverse ++ [s]) := by
        have hx : e.count - s + 1 = d + 2 := by omega
        have hy : s + 1 + 1 * d = e.count := by omega
        rw [hx, List.range'_succ, List.range'_concat, hy]
        simp
      rw [hshape]
      exact Trail.cons 1 e.count _ hadv1
        (isStart_some_ne e s hs e.count (by omega)) hdesc
  have := trail_backward_steps e hdir
    ((List.range' s (e.count - s + 1)).reverse) (s - 1) s (by omega)
    (fun x hx1 hx2 => isStart_some_ne e s hs x (by omega))
    (by rw [show s - (s - 1) = 1 from by omega]; exact hmid)
  rw [show s - (s - 1) = 1 from by omega] at this
  exact this

/-- C6 (amended): for a criterion that matches no frame, `find_packet`
terminates with the not-found outcome, evaluating the criterion only on
filter-passing frames and on each at most once — under the clamp policy
from any starting selection (including none), and under the wrap-around
policy from any valid selection.  (With wrap-around and *no* selection the
loop never reaches its stop condition; see the counterexample.) -/
theorem C6_search_no_match_terminates (e : FindEnv)
    (hm : ∀ n, e.crit n = false)
    (hsel : ∀ s, e.sel = some s → 1 ≤ s ∧ s ≤ e.count)
    (hok : e.wrap = false ∨ e.sel ≠ none) :
    ∃ evals, find_packet_model e (e.count + 2) = (some none, evals) ∧
      evals.Nodup ∧
      ∀ x ∈ evals, (1 ≤ x ∧ x ≤ e.count) ∧ e.passed x = true := by
  rcases hselc : e.sel with _ | s
  · have hw : e.wrap = false := by
      rcases hok with hw | hne
      · exact hw
      · exact absurd hselc hne
    have hprev : e.prev = 0 := by simp [FindEnv.prev, hselc]
    rcases hdirc : e.dir with _ | _
    · have htr : Trail e e.prev (List.range' 1 e.count ++ [0]) := by
        rw [hprev]
        exact trail_forward_clamp_nosel e hdirc hw hselc
      refine find_noMatch_run e hm (List.range' 1 e.count ++ [0])
        htr ?_ (e.count + 2) ?_
      · refine List.Nodup.append (List.nodup_range' 1 e.count)
          (List.nodup_singleton 0) ?_
        intro x hx1 hx2
        rw [List.mem_range'_1] at hx1
        simp only [List.mem_singleton] at hx2
        omega
      · simp only [List.length_append, List.length_range',
          List.length_singleton]
        omega
    · refine find_noMatch_run e hm [0]
        (hprev ▸ trail_backward_clamp_nosel e hdirc hw hselc)
        (List.nodup_singleton 0) (e.count + 2) (by simp)
  · have hs12 := hsel s hselc
    have hprev : e.prev = s := by simp [FindEnv.prev, hselc]
    rcases hdirc : e.dir with _ | _
    · by_cases hw : e.wrap = true
      · refine find_noMatch_run e hm
          (List.range' (s + 1) (e.count - s) ++ List.range' 1 s)
          (hprev ▸ trail_forward_wrap_sel e hdirc hw s hselc hs12.1 hs12.2)
          ?_ (e.count + 2) ?_
        · refine List.Nodup.append (List.nodup_range' (s + 1) (e.count - s))
            (List.nodup_range' 1 s) ?_
          intro x hx1 hx2
          rw [List.mem_range'_1] at hx1 hx2
          omega
        · simp only [List.length_append, List.length_range']
          omega
      · have hw2 : e.wrap = false := by simpa using hw
        refine find_noMatch_run e hm
          (List.range' (s + 1) (e.count - s) ++ [s])
          (hprev ▸ trail_forward_clamp_sel e hdirc hw2 s hselc hs12.1 hs12.2)
          ?_ (e.count + 2) ?_
        · refine List.Nodup.append (List.nodup_range' (s + 1) (e.count - s))
            (List.nodup_singleton s) ?_
          intro x hx1 hx2
          rw [List.mem_range'_1] at hx1
          simp only [List.mem_singleton] at hx2
          omega
        · simp only [List.length_append, List.length_range',
            List.length_singleton]
          omega
    · by_cases hw : e.wrap = true
      · refine find_noMatch_run e hm
          ((List.range' 1 (s - 1)).reverse
            ++ (List.range' s (e.count - s + 1)).reverse)
          (hprev ▸ trail_backward_wrap_sel e hdirc hw s hselc hs12.1 hs12.2)
          ?_ (e.count + 2) ?_
        · refine List.Nodup.append (List.nodup_reverse.mpr
            (List.nodup_range' 1 (s - 1)))
            (List.nodup_reverse.mpr (List.nodup_range' s (e.count - s + 1)))
            ?_
          intro x hx1 hx2
          rw [List.mem_reverse, List.mem_range'_1] at hx1 hx2
          omega
        · simp only [List.length_append, List.length_reverse,
            List.length_range']
          omega
      · have hw2 : e.wrap = false := by simpa using hw
        refine find_noMatch_run e hm
          ((List.range' 1 (s - 1)).reverse ++ [s])
          (hprev ▸ trail_backward_clamp_sel e hdirc hw2 s hselc hs12.1 hs12.2)
          ?_ (e.count + 2) ?_
        · refine List.Nodup.append (List.nodup_reverse.mpr
            (List.nodup_range' 1 (s - 1))) (List.nodup_singleton s) ?_
          intro x hx1 hx2
          rw [List.mem_reverse, List.mem_range'_1] at hx1
          simp only [List.mem_singleton] at hx2
          omega
        · simp only [List.length_append, List.length_reverse,
            List.length_range', List.length_singleton]
          omega

theorem C6_search_no_match_terminates_witness :
    ∃ evals,
      find_packet_model
        ⟨3, fun _ => true, fun _ => false, true, SearchDir.sdForward, some 2⟩
        5 = (some none, evals) ∧
      evals.Nodup ∧
      ∀ x ∈ evals, (1 ≤ x ∧ x ≤ 3) ∧
        (fun (_ : Nat) => true) x = true :=
  C6_search_no_match_terminates
    ⟨3, fun _ => true, fun _ => false, true, SearchDir.sdForward, some 2⟩
    (fun _ => rfl)
    (fun s h => by cases h; exact ⟨by decide, by decide⟩)
    (Or.inr (by simp))

/-- C6 counterexample: with wrap-around enabled and no frame selected, a
search whose criterion matches nothing never reaches the
`fdata == start_fd` stop condition (`start_fd` is NULL and every visited
frame is real), so `find_packet` revisits the same displayed frame
unboundedly — here frame 1 is evaluated three times within three
iterations, contradicting at-most-once-per-direction (and the loop ends
only by exhausting fuel, never with an outcome). -/
theorem C6_wrap_no_selection_diverges :
    (find_packet_model
      ⟨1, fun _ => true, fun _ => false, true, SearchDir.sdForward, none⟩
      3).1 = none ∧
    (find_packet_model
      ⟨1, fun _ => true, fun _ => false, true, SearchDir.sdForward, none⟩
      3).2 = [1, 1, 1] := by
  constructor <;> rfl

end Wireshark
